import Mathlib

/-!
Verification of the oauth-batch-authorizer scripts.

Shallow embedding of the TypeScript sources under `scripts/src/`:
`rotate.ts` (rotation indexer), `main.ts` (batch orchestrator, `runAuthCommand`),
`login-flow.ts` (challenge detection) and `cpamc.ts` (status polling and the
artifact verifier `waitForAuthFileByEmail`).

Modelling conventions:
- JSON values parsed by `JSON.parse` are modelled by the inductive `JsonVal`;
  a failed read or parse is `Option.none`.
- Host primitives are parameters: `Date.now()` is an `Int` argument `now`,
  `Date.parse` is a `String → Option Int` argument (`none` models `NaN`),
  `new Date().toISOString()` values are `String` arguments.
- Browser/console/filesystem interactions of one orchestrator iteration are an
  `AccountBehavior` record of call outcomes; a thrown exception is `.error msg`.
- `path.basename`/`path.join` are modelled for POSIX separators on the
  already-normalized paths this program builds; `toLowerCase` is modelled by
  ASCII lowering (all compared literals are ASCII or caseless CJK).
- Strings are treated as lists of characters; JS UTF-16-unit indexing
  (`slice(0, 12000)`) is modelled by taking characters.
-/

namespace OauthBatch

/-- Is `p` a prefix of the second list (character-wise)? -/
def startsSeq : List Char → List Char → Bool
  | [], _ => true
  | _ :: _, [] => false
  | p :: ps, c :: cs => p == c && startsSeq ps cs

/-- Does the second list contain `pat` as a contiguous subsequence?
Models JS `String.prototype.includes`. -/
def containsSeq (pat : List Char) : List Char → Bool
  | [] => startsSeq pat []
  | c :: cs => startsSeq pat (c :: cs) || containsSeq pat cs

/-- JS `hay.includes(needle)`. -/
def strContains (hay needle : String) : Bool :=
  containsSeq needle.toList hay.toList

/-- JS `s.startsWith(p)`. -/
def strStarts (s p : String) : Bool :=
  startsSeq p.toList s.toList

/-- JS `s.endsWith(p)`. -/
def strEnds (s p : String) : Bool :=
  startsSeq p.toList.reverse s.toList.reverse

/-- JS `s.toLowerCase()` (ASCII range; every cased literal in the sources is ASCII). -/
def strLower (s : String) : String :=
  ⟨s.toList.map Char.toLower⟩

/-- JS `s.slice(0, n)` (modelled on characters). -/
def strTake (s : String) (n : Nat) : String :=
  ⟨s.toList.take n⟩

/-- Split a character list on a separator character. -/
def splitChars (sep : Char) : List Char → List (List Char)
  | [] => [[]]
  | c :: cs =>
    let rest := splitChars sep cs
    if c == sep then [] :: rest
    else
      match rest with
      | [] => [[c]]
      | g :: gs => (c :: g) :: gs

/-- Node `path.basename` for POSIX paths without trailing separators
(the program only applies it to `dir + "/" + fileName` strings and to
file names stored by itself). -/
def basename (p : String) : String :=
  ⟨((splitChars '/' p.toList).getLast?).getD p.toList⟩

/-- Node `path.join(dir, name)` for an already-normalized `dir`. -/
def pathJoin (dir name : String) : String :=
  dir ++ "/" ++ name

/-- JSON values as produced by `JSON.parse`. -/
inductive JsonVal where
  | jnull
  | jbool (b : Bool)
  | jnum (n : Int)
  | jstr (s : String)
  | jarr (elems : List JsonVal)
  | jobj (fields : List (String × JsonVal))

/-- Property read on a parsed JSON object (`JSON.parse` keeps the last
duplicate key). An absent property (JS `undefined`) is `none`. -/
def objGet (fields : List (String × JsonVal)) (key : String) : Option JsonVal :=
  ((fields.filter (fun p => p.1 == key)).getLast?).map (·.2)

/-- JS property access `j.key` on a non-null value: `undefined` (`none`) unless
`j` is an object with the property. Access on `null` throws and is handled at
each call site. -/
def jsonField (j : JsonVal) (key : String) : Option JsonVal :=
  match j with
  | .jobj fields => objGet fields key
  | _ => none

/-- `RotateAccountEntry` from `types.ts`, restricted to the four properties the
program ever reads (`email`, `file`, `expired`, `status`). The `expired` and
`status` properties of entries loaded from a previously persisted index are
arbitrary JSON (the runtime filter in `writeRotationIndex` does not check
them), hence `Option JsonVal`; `none` is an absent property. -/
structure RotateAccountEntry where
  email : String
  file : String
  expired : Option JsonVal
  status : Option JsonVal

/-- JS strict comparison `entry.status === s` for a string literal `s`. -/
def statusIs (e : RotateAccountEntry) (s : String) : Bool :=
  match e.status with
  | some (.jstr t) => t == s
  | _ => false

/-- `accountKey` from `rotate.ts`:
`entry.email.toLowerCase() + "|" + path.basename(entry.file).toLowerCase()`. -/
def accountKey (e : RotateAccountEntry) : String :=
  strLower e.email ++ "|" ++ strLower (basename e.file)

/-- `data.disabled === true` in `classify`. -/
def readDisabled (j : JsonVal) : Bool :=
  match jsonField j "disabled" with
  | some (.jbool true) => true
  | _ => false

/-- `typeof data.expired === "string" ? data.expired : undefined` in `classify`. -/
def readExpiredStr (j : JsonVal) : Option String :=
  match jsonField j "expired" with
  | some (.jstr s) => some s
  | _ => none

/-- `typeof data.email === "string" ? data.email : path.basename(file)`. -/
def readEmailOr (j : JsonVal) (file : String) : String :=
  match jsonField j "email" with
  | some (.jstr s) => s
  | _ => basename file

/-- The `if (expired) { const exp = Date.parse(expired); if
(Number.isFinite(exp) && exp < Date.now()) ... }` test in `classify`: the JS
truthiness test rejects the empty string, `dateParse` returning `none` models
`NaN`. -/
def expiredInPast (now : Int) (dateParse : String → Option Int) : Option String → Bool
  | none => false
  | some s =>
    (s != "") &&
      (match dateParse s with
       | some t => t < now
       | none => false)

/-- `classify` from `rotate.ts`. `content = none` models a file that cannot be
read or parsed (`readFileSync`/`JSON.parse` throwing); a parsed top-level
`null` makes the `data.email` access throw a `TypeError`, which the same
`catch` turns into an `invalid` entry. -/
def classify (now : Int) (dateParse : String → Option Int) (file : String)
    (content : Option JsonVal) : RotateAccountEntry :=
  match content with
  | none =>
    { email := basename file, file := file, expired := none, status := some (.jstr "invalid") }
  | some .jnull =>
    { email := basename file, file := file, expired := none, status := some (.jstr "invalid") }
  | some data =>
    let email := readEmailOr data file
    let expired := readExpiredStr data
    if readDisabled data then
      { email := email, file := file, expired := expired.map .jstr,
        status := some (.jstr "disabled") }
    else if expiredInPast now dateParse expired then
      { email := email, file := file, expired := expired.map .jstr,
        status := some (.jstr "expired") }
    else
      { email := email, file := file, expired := expired.map .jstr,
        status := some (.jstr "active") }

/-- The directory-scan filter `d.name.startsWith("codex-") &&
d.name.endsWith(".json")` used both by `buildRotationIndex` (rotate.ts) and by
`waitForAuthFileByEmail` (cpamc.ts). -/
def isCodexJsonName (name : String) : Bool :=
  strStarts name "codex-" && strEnds name ".json"

/-- `RotateIndex` from `types.ts`. -/
structure RotateIndex where
  generated_at : String
  total : Nat
  active : Nat
  expired : Nat
  disabled : Nat
  invalid : Nat
  accounts : List RotateAccountEntry

/-- The count `accounts.filter((a) => a.status === s).length`. -/
def countStatus (l : List RotateAccountEntry) (s : String) : Nat :=
  (l.filter (fun a => statusIs a s)).length

/-- `buildRotationIndex` from `rotate.ts`. The directory is a `listing` of
`(fileName, parsedContent)` pairs (`readdirSync` restricted to plain files);
`genAt` is the `new Date().toISOString()` value. -/
def buildRotationIndex (now : Int) (dateParse : String → Option Int) (genAt : String)
    (dir : String) (listing : List (String × Option JsonVal)) : RotateIndex :=
  let files := listing.filter (fun f => isCodexJsonName f.1)
  let accounts := files.map (fun f => classify now dateParse (pathJoin dir f.1) f.2)
  { generated_at := genAt
    total := accounts.length
    active := countStatus accounts "active"
    expired := countStatus accounts "expired"
    disabled := countStatus accounts "disabled"
    invalid := countStatus accounts "invalid"
    accounts := accounts }

/-- The runtime type-guard of `writeRotationIndex` (lines 71-73 of rotate.ts)
stated as in the spec: a prior entry is kept only when it is an object carrying
a string `email` property and a string `file` property. -/
def isWellFormedPrev (j : JsonVal) : Bool :=
  match j with
  | .jobj fields =>
    (match objGet fields "email" with
     | some (.jstr _) => true
     | _ => false) &&
    (match objGet fields "file" with
     | some (.jstr _) => true
     | _ => false)
  | _ => false

/-- Decoding of one element of the persisted `accounts` array, as the filter
`!!x && typeof x === "object" && typeof x.email === "string" && typeof x.file
=== "string"` admits it (a JS array also has `typeof "object"` but then has no
`email` property, so it is likewise rejected). The surviving entry is the
original value projected to the four properties the program reads. -/
def decodeEntry (j : JsonVal) : Option RotateAccountEntry :=
  match j with
  | .jobj fields =>
    match objGet fields "email", objGet fields "file" with
    | some (.jstr e), some (.jstr f) =>
      some { email := e, file := f, expired := objGet fields "expired",
             status := objGet fields "status" }
    | _, _ => none
  | _ => none

/-- The `parsed.accounts` array of the previously persisted index file.
`prev = none` models: no file, unreadable file, or `JSON.parse` failure (the
`catch` yields no existing accounts); a parsed `null` makes `parsed.accounts`
throw, caught the same way. -/
def prevAccountsArray (prev : Option JsonVal) : List JsonVal :=
  match prev with
  | some (.jobj fields) =>
    match objGet fields "accounts" with
    | some (.jarr xs) => xs
    | _ => []
  | _ => []

/-- `existingAccounts` in `writeRotationIndex`: the well-formed prior entries. -/
def decodePrevAccounts (prev : Option JsonVal) : List RotateAccountEntry :=
  (prevAccountsArray prev).filterMap decodeEntry

/-- Association-list lookup (JS `Map.get`). -/
def alookup {α : Type} : List (String × α) → String → Option α
  | [], _ => none
  | (k₀, v₀) :: rest, k => if k₀ = k then some v₀ else alookup rest k

/-- JS `Map.set`: updates the value in place when the key is present (keeping
insertion order), otherwise appends. The maps built below never hold duplicate
keys. -/
def mapSet {α : Type} : List (String × α) → String → α → List (String × α)
  | [], k, v => [(k, v)]
  | (k₀, v₀) :: rest, k, v =>
    if k₀ = k then (k, v) :: rest else (k₀, v₀) :: mapSet rest k v

/-- The `for (const acc of l) merged.set(accountKey(acc), acc)` loops of
`writeRotationIndex`. -/
def insertAll (m : List (String × RotateAccountEntry)) (l : List RotateAccountEntry) :
    List (String × RotateAccountEntry) :=
  l.foldl (fun m e => mapSet m (accountKey e) e) m

/-- `[...merged.values()]` (insertion order). -/
def mvalues {α : Type} (m : List (String × α)) : List α :=
  m.map (·.2)

/-- The merged accounts list of `writeRotationIndex`: a map seeded from the
existing entries, then overwritten by the fresh entries sharing a key. -/
def mergeAccounts (existing fresh : List RotateAccountEntry) : List RotateAccountEntry :=
  mvalues (insertAll (insertAll [] existing) fresh)

/-- `writeRotationIndex` from `rotate.ts`: `prev` is the parse of the file at
`outPath` (see `prevAccountsArray`), `index` the freshly built index, `genAt`
the write-time `new Date().toISOString()`. Returns the index written out. -/
def writeRotationIndex (genAt : String) (prev : Option JsonVal) (index : RotateIndex) :
    RotateIndex :=
  let existingAccounts := decodePrevAccounts prev
  let mergedAccounts := mergeAccounts existingAccounts index.accounts
  { generated_at := genAt
    total := mergedAccounts.length
    active := countStatus mergedAccounts "active"
    expired := countStatus mergedAccounts "expired"
    disabled := countStatus mergedAccounts "disabled"
    invalid := countStatus mergedAccounts "invalid"
    accounts := mergedAccounts }

/-- `JSON.stringify` of a stored entry, restricted to the four modelled
properties; properties holding `undefined` (`none`) are omitted, exactly as
`JSON.stringify` omits them. -/
def entryToJson (e : RotateAccountEntry) : JsonVal :=
  .jobj ([("email", .jstr e.email), ("file", .jstr e.file)]
    ++ (match e.expired with | some v => [("expired", v)] | none => [])
    ++ (match e.status with | some v => [("status", v)] | none => []))

/-- `JSON.stringify` of a written index (re-parsed form). -/
def indexToJson (i : RotateIndex) : JsonVal :=
  .jobj [("generated_at", .jstr i.generated_at),
         ("total", .jnum i.total),
         ("active", .jnum i.active),
         ("expired", .jnum i.expired),
         ("disabled", .jnum i.disabled),
         ("invalid", .jnum i.invalid),
         ("accounts", .jarr (i.accounts.map entryToJson))]

/-- An entry whose `status` is one of the four classification strings. -/
def hasKnownStatus (e : RotateAccountEntry) : Bool :=
  statusIs e "active" || statusIs e "expired" || statusIs e "disabled" || statusIs e "invalid"

/-- `FailureCode` from `types.ts`. -/
inductive FailureCode where
  | INVALID_INPUT
  | LOGIN_REJECTED
  | CHALLENGE_REQUIRED
  | TOKEN_NOT_FOUND
  | WRITE_FAILED
  | CPAMC_LOGIN_FAILED
  | CPAMC_LINK_NOT_FOUND
  | CPAMC_OAUTH_FAILED
  | CALLBACK_URL_NOT_CAPTURED
  | CALLBACK_SUBMIT_FAILED
  | UNKNOWN
deriving DecidableEq

/-- The status union of `AuthResult` in `types.ts`. -/
inductive AuthStatus where
  | success
  | failed
  | skipped
deriving DecidableEq

/-- `AccountCredential` from `types.ts`. -/
structure AccountCredential where
  email : String
  password : String
  plan : Option String
deriving DecidableEq

/-- The status union of `CpamcAuthStatus` in `cpamc.ts`. -/
inductive CpamcStatusKind where
  | success
  | error
  | waiting
deriving DecidableEq

/-- `CpamcAuthStatus` from `cpamc.ts` (the `raw` debug field is never read by
the orchestrator and is omitted). -/
structure CpamcAuthStatus where
  status : CpamcStatusKind
  message : Option String
deriving DecidableEq

/-- The result record of `runLoginFlow` in `login-flow.ts`. -/
structure FlowResult where
  finalUrl : String
  challenge : Bool
  invalidCredentials : Bool
  callbackUrl : Option String
deriving DecidableEq

/-- `AuthResult` from `types.ts`. -/
structure AuthResult where
  email : String
  plan : String
  status : AuthStatus
  code : Option FailureCode
  message : Option String
  file : Option String
  started_at : String
  ended_at : String
deriving DecidableEq

/-- Outcomes of the external calls made during one account's iteration of
`runAuthCommand` (main.ts lines 130-264); `.error msg` models the call throwing
an `Error` with that message. `startedAt`/`endedAt` are the wall-clock strings
taken at the start and at result time. -/
structure AccountBehavior where
  consoleSetup : Except String Unit
  authUrl : Except String String
  flow : Except String FlowResult
  detect : Except String Bool
  poll : Except String CpamcAuthStatus
  file : Except String (Option String)
  startedAt : String
  endedAt : String

/-- `getStateFromAuthUrl` from `cpamc.ts`: `new URL(u).searchParams.get("state")`,
modelled as the first `state` parameter of the query string after the first
`?` (without percent-decoding; the URLs handled carry opaque tokens). A URL
with no query part yields `none`, subsuming the invalid-URL `catch`. -/
def getStateFromAuthUrl (authUrl : String) : Option String :=
  match splitChars '?' authUrl.toList with
  | _ :: q :: qs =>
    let query := List.intercalate ['?'] (q :: qs)
    ((splitChars '&' query).filterMap (fun kv =>
      match splitChars '=' kv with
      | k :: v :: vs => if k = "state".toList then some ⟨List.intercalate ['='] (v :: vs)⟩ else none
      | _ => none)).head?
  | _ => none

/-- The error classification of the `catch` block in `runAuthCommand`
(main.ts lines 240-246). -/
def classifyCaughtError (message : String) : FailureCode :=
  let lower := strLower message
  if strContains lower "management key" then .CPAMC_LOGIN_FAILED
  else if strContains lower "auth url" then .CPAMC_LINK_NOT_FOUND
  else if strContains lower "timeout" then .LOGIN_REJECTED
  else .UNKNOWN

/-- The failed `AuthResult` recorded by the `catch` block of one account's
iteration. -/
def catchResult (defaultPlan : String) (account : AccountCredential)
    (b : AccountBehavior) (message : String) : AuthResult :=
  { email := account.email
    plan := account.plan.getD defaultPlan
    status := .failed
    code := some (classifyCaughtError message)
    message := some message
    file := none
    started_at := b.startedAt
    ended_at := b.endedAt }

/-- One iteration of the account loop of `runAuthCommand` (main.ts lines
139-261): the `try` body with each external call resolved by `b`, and the
`catch` block handling whichever call throws first. `detect` is consulted only
when the flow did not already report a challenge (`flowResult.challenge ||
(await detectChallenge(...))` short-circuits). -/
def processAccount (defaultPlan : String) (account : AccountCredential)
    (b : AccountBehavior) : AuthResult :=
  let plan := account.plan.getD defaultPlan
  match b.consoleSetup with
  | .error msg => catchResult defaultPlan account b msg
  | .ok _ =>
    match b.authUrl with
    | .error msg => catchResult defaultPlan account b msg
    | .ok authUrl =>
      if ((getStateFromAuthUrl authUrl).getD "") = "" then
        { email := account.email, plan := plan, status := .failed,
          code := some .CPAMC_LINK_NOT_FOUND, message := some "Auth URL state not found.",
          file := none, started_at := b.startedAt, ended_at := b.endedAt }
      else
        match b.flow with
        | .error msg => catchResult defaultPlan account b msg
        | .ok flowResult =>
          match (if flowResult.challenge then Except.ok true else b.detect) with
          | .error msg => catchResult defaultPlan account b msg
          | .ok challenge =>
            match b.poll with
            | .error msg => catchResult defaultPlan account b msg
            | .ok status =>
              if flowResult.invalidCredentials then
                { email := account.email, plan := plan, status := .failed,
                  code := some .LOGIN_REJECTED,
                  message := some (status.message.getD "Incorrect email address or password."),
                  file := none, started_at := b.startedAt, ended_at := b.endedAt }
              else if challenge then
                { email := account.email, plan := plan, status := .failed,
                  code := some .CHALLENGE_REQUIRED,
                  message := some (status.message.getD
                    "Challenge detected (captcha/2FA/verification). Skipped account."),
                  file := none, started_at := b.startedAt, ended_at := b.endedAt }
              else if status.status = .error then
                { email := account.email, plan := plan, status := .failed,
                  code := some .CPAMC_OAUTH_FAILED,
                  message := some (status.message.getD "CPAMC OAuth reported failure."),
                  file := none, started_at := b.startedAt, ended_at := b.endedAt }
              else if status.status = .waiting then
                { email := account.email, plan := plan, status := .failed,
                  code := some .CPAMC_OAUTH_FAILED,
                  message := some "Timed out waiting CPAMC authentication result.",
                  file := none, started_at := b.startedAt, ended_at := b.endedAt }
              else
                match b.file with
                | .error msg => catchResult defaultPlan account b msg
                | .ok none =>
                  { email := account.email, plan := plan, status := .failed,
                    code := some .WRITE_FAILED,
                    message := some "OAuth completed but auth file not found.",
                    file := none, started_at := b.startedAt, ended_at := b.endedAt }
                | .ok (some f) =>
                  { email := account.email, plan := plan, status := .success,
                    code := none, message := none, file := some f,
                    started_at := b.startedAt, ended_at := b.endedAt }

/-- The non-dry-run account loop of `runAuthCommand`: each iteration pushes
exactly one `AuthResult` onto `results`. -/
def runAuthBatch (defaultPlan : String)
    (batch : List (AccountCredential × AccountBehavior)) : List AuthResult :=
  batch.foldl (fun results ab => results ++ [processAccount defaultPlan ab.1 ab.2]) []

/-- The per-file test of one poll tick in `waitForAuthFileByEmail` (cpamc.ts
lines 510-520): the file parses to a value whose `email` property is a string
case-insensitively equal to the target (`none` content - unreadable or
unparsable - never matches; property access on a parsed `null` throws and is
swallowed by the same `catch`). -/
def snapshotFileMatches (lowerEmail : String) (content : Option JsonVal) : Bool :=
  match content with
  | some .jnull => false
  | some data =>
    (match jsonField data "email" with
     | some (.jstr e) => strLower e == lowerEmail
     | _ => false)
  | none => false

/-- One poll tick of `waitForAuthFileByEmail` over a directory snapshot:
filter names by the artifact naming convention, return the first match. -/
def findAuthFileInSnapshot (authDir email : String)
    (snapshot : List (String × Option JsonVal)) : Option String :=
  (((snapshot.filter (fun f => isCodexJsonName f.1)).find?
      (fun f => snapshotFileMatches (strLower email) f.2)).map
    (fun f => pathJoin authDir f.1))

/-- `waitForAuthFileByEmail` from `cpamc.ts`: the 1-second polling loop bounded
by `timeoutMs`, modelled over the finite list of directory snapshots observed
by the successive ticks that fit before the timeout; `none` is the timeout
(`undefined`) result. -/
def waitForAuthFileByEmail (authDir email : String) :
    List (List (String × Option JsonVal)) → Option String
  | [] => none
  | snap :: rest =>
    match findAuthFileInSnapshot authDir email snap with
    | some f => some f
    | none => waitForAuthFileByEmail authDir email rest

/-- `FlowConfig` from `types.ts`. -/
structure FlowConfig where
  loginUrl : String
  loginButtonSelector : Option String
  emailSelector : String
  emailSubmitSelector : Option String
  passwordSelector : String
  passwordSubmitSelector : String
  successUrlIncludes : List String
  challengeSelectors : List String
  challengeTextPatterns : List String
  localStorageKeys : List String
  responseUrlPatterns : List String
  accountType : String

/-- Observable page state consumed by `detectChallenge` /
`onCodexConsentPage`: the body text of every frame, the page HTML content, and
the set of selectors that currently locate a visible element. -/
structure PageModel where
  frames : List String
  content : String
  visibleSelectors : List String

/-- `(await loc.count()) > 0 && (await loc.isVisible())` for a selector. -/
def selectorVisible (p : PageModel) (s : String) : Bool :=
  p.visibleSelectors.contains s

/-- `frameLooksLikeConsent` from `login-flow.ts`: the first 12000 units of the
frame body text match `/登录到 Codex|to Codex/i`. -/
def frameLooksLikeConsent (bodyText : String) : Bool :=
  let t := strLower (strTake bodyText 12000)
  strContains t "登录到 codex" || strContains t "to codex"

/-- `onCodexConsentPage` from `login-flow.ts`. -/
def onCodexConsentPage (p : PageModel) : Bool :=
  p.frames.any frameLooksLikeConsent

/-- The `overlyBroad` keyword set of `detectChallenge`. -/
def overlyBroad : List String :=
  ["verification", "验证"]

/-- `detectChallenge` from `login-flow.ts` (lines 12-30). -/
def detectChallenge (p : PageModel) (cfg : FlowConfig) : Bool :=
  if onCodexConsentPage p then false
  else if cfg.challengeSelectors.any (fun s => selectorVisible p s) then true
  else
    let html := strLower p.content
    ((cfg.challengeTextPatterns.map strLower).filter
        (fun t => !(overlyBroad.contains t))).any
      (fun t => strContains html t)

/-- First-of-two options (`a` wins when present); evaluation shape of the
merge-lookup lemmas below. -/
def oor {α : Type} (a b : Option α) : Option α :=
  match a with
  | some v => some v
  | none => b

/-- The key list of an association-list map. -/
def mkeys {α : Type} (m : List (String × α)) : List String :=
  m.map (·.1)

/-- Every stored key is the `accountKey` of its value — the invariant of the
maps built by `writeRotationIndex`. -/
def mapInv (m : List (String × RotateAccountEntry)) : Prop :=
  ∀ p ∈ m, p.1 = accountKey p.2

/-! Concrete instances used by witnesses and counterexamples. -/

/-- A `Date.parse` oracle on which every string is unparsable (`NaN`). -/
def dpNone : String → Option Int := fun _ => none

/-- A `Date.parse` oracle parsing exactly the timestamp literal `"E"` to 100. -/
def dpE : String → Option Int := fun s => if s = "E" then some 100 else none

/-- A persisted index whose single well-formed entry carries a `status` that is
none of the four classification strings (e.g. a hand-edited file). -/
def prevWeirdStatus : JsonVal :=
  .jobj [("accounts", .jarr
    [.jobj [("email", .jstr "a@x.com"), ("file", .jstr "codex-a.json"),
            ("status", .jstr "weird")]])]

/-- A directory holding one artifact whose `expired` timestamp parses to 100. -/
def listingExp : List (String × Option JsonVal) :=
  [("codex-a.json", some (.jobj [("email", .jstr "a@x.com"), ("expired", .jstr "E")]))]

/-- First Rotation Indexer run over `listingExp`, clock at 50 (before expiry). -/
def idxRunOne : RotateIndex :=
  writeRotationIndex "w1" none (buildRotationIndex 50 dpE "g1" "/d" listingExp)

/-- Second run over the unchanged directory, clock at 150 (after expiry),
merging into the first run's output file. -/
def idxRunTwo : RotateIndex :=
  writeRotationIndex "w2" (some (indexToJson idxRunOne))
    (buildRotationIndex 150 dpE "g2" "/d" listingExp)

/-- The entry `idxRunTwo` records for the artifact. -/
def entryExpired : RotateAccountEntry :=
  { email := "a@x.com", file := "/d/codex-a.json", expired := some (.jstr "E"),
    status := some (.jstr "expired") }

/-- The entry `idxRunOne` records for the artifact. -/
def entryActive : RotateAccountEntry :=
  { email := "a@x.com", file := "/d/codex-a.json", expired := some (.jstr "E"),
    status := some (.jstr "active") }

/-- A demo account for orchestrator witnesses. -/
def demoAccount : AccountCredential :=
  { email := "a@x.com", password := "p1", plan := some "free" }

/-- A fully successful iteration environment for `demoAccount`. -/
def demoOkBehavior : AccountBehavior :=
  { consoleSetup := .ok ()
    authUrl := .ok "https://auth.openai.com/oauth/authorize?state=abc123"
    flow := .ok { finalUrl := "https://chatgpt.com/", challenge := false,
                  invalidCredentials := false, callbackUrl := none }
    detect := .ok false
    poll := .ok { status := .success, message := some "ok" }
    file := .ok (some "/out/codex-a_x.com-free.json")
    startedAt := "t0", endedAt := "t1" }

/-- An iteration environment whose flow call throws a timeout error. -/
def demoThrowBehavior : AccountBehavior :=
  { consoleSetup := .ok ()
    authUrl := .ok "https://auth.openai.com/oauth/authorize?state=abc123"
    flow := .error "Timeout 120000ms exceeded."
    detect := .ok false
    poll := .ok { status := .waiting, message := none }
    file := .ok none
    startedAt := "t0", endedAt := "t1" }

/-- An iteration environment that reaches artifact verification and times out. -/
def demoNoFileBehavior : AccountBehavior :=
  { consoleSetup := .ok ()
    authUrl := .ok "https://auth.openai.com/oauth/authorize?state=abc123"
    flow := .ok { finalUrl := "https://chatgpt.com/", challenge := false,
                  invalidCredentials := false, callbackUrl := none }
    detect := .ok false
    poll := .ok { status := .success, message := some "ok" }
    file := .ok none
    startedAt := "t0", endedAt := "t1" }

/-- A second demo account. -/
def demoAccountB : AccountCredential :=
  { email := "b@x.com", password := "p2", plan := none }

/-- A two-account demo batch: the first account succeeds, the second throws. -/
def demoBatch : List (AccountCredential × AccountBehavior) :=
  [(demoAccount, demoOkBehavior), (demoAccountB, demoThrowBehavior)]

/-- The result the orchestrator records for `demoAccount` under
`demoOkBehavior`. -/
def demoResult : AuthResult :=
  processAccount "free" demoAccount demoOkBehavior

/-- The demo authorization URL (carries `state=abc123`). -/
def demoAuthUrl : String :=
  "https://auth.openai.com/oauth/authorize?state=abc123"

/-- A flow-driver result reporting rejected credentials. -/
def demoInvalidFlow : FlowResult :=
  { finalUrl := "https://auth.openai.com/log-in", challenge := false,
    invalidCredentials := true, callbackUrl := none }

/-- An iteration environment where the flow reports invalid credentials while
the console status endpoint reports success. -/
def demoInvalidBehavior : AccountBehavior :=
  { consoleSetup := .ok ()
    authUrl := .ok demoAuthUrl
    flow := .ok demoInvalidFlow
    detect := .ok false
    poll := .ok { status := .success, message := some "认证成功" }
    file := .ok none
    startedAt := "t0", endedAt := "t1" }

/-- The flow result shared by `demoOkBehavior` and `demoNoFileBehavior`. -/
def demoOkFlow : FlowResult :=
  { finalUrl := "https://chatgpt.com/", challenge := false,
    invalidCredentials := false, callbackUrl := none }

/-- A page showing the provider's consent surface. -/
def demoConsentPage : PageModel :=
  { frames := ["Log in to Codex to continue"], content := "security check",
    visibleSelectors := [] }

/-- A page showing a challenge text with no consent surface. -/
def demoChallengePage : PageModel :=
  { frames := ["please complete this security check"],
    content := "please complete this Security Check to continue",
    visibleSelectors := [] }

/-- The default flow configuration of `getDefaultFlowConfig` (config.ts). -/
def demoFlowConfig : FlowConfig :=
  { loginUrl := "https://auth.openai.com/log-in"
    loginButtonSelector := some ""
    emailSelector := "input[type='email']"
    emailSubmitSelector := some "button[type='submit']"
    passwordSelector := "input[type='password']"
    passwordSubmitSelector := "button[type='submit']"
    successUrlIncludes := ["code=", "callback", "redirect"]
    challengeSelectors := ["iframe[src*='captcha']", "[data-testid*='captcha']",
      "input[name='otp']", "input[autocomplete='one-time-code']"]
    challengeTextPatterns := ["verification", "security check", "two-factor", "2-step",
      "验证码", "验证"]
    localStorageKeys := ["refresh_token", "access_token", "id_token",
      "auth:refresh_token", "auth0.refresh_token"]
    responseUrlPatterns := ["/oauth/token", "/token", "/authorize", "/signin"]
    accountType := "codex" }

/-- The well-formed prior entry decoded from `prevWeirdStatus`. -/
def entryWeird : RotateAccountEntry :=
  { email := "a@x.com", file := "codex-a.json", expired := none,
    status := some (.jstr "weird") }

/-- The index a scan of an empty directory builds. -/
def emptyIdx : RotateIndex :=
  buildRotationIndex 0 dpNone "t" "/d" []

/-! ### Association-map lemmas (the JS `Map` used by `writeRotationIndex`) -/

theorem alookup_mapSet {α : Type} (m : List (String × α)) (k k' : String) (v : α) :
    alookup (mapSet m k v) k' = if k = k' then some v else alookup m k' := by
  induction m with
  | nil => rfl
  | cons p rest ih =>
    obtain ⟨k₀, v₀⟩ := p
    by_cases h0 : k₀ = k
    · rw [show mapSet ((k₀, v₀) :: rest) k v = (k, v) :: rest by simp [mapSet, h0]]
      by_cases h : k = k'
      · subst h
        rw [show alookup ((k, v) :: rest) k = if k = k then some v else alookup rest k from rfl]
        simp
      · rw [show alookup ((k, v) :: rest) k' = if k = k' then some v else alookup rest k' from rfl,
            if_neg h, if_neg h,
            show alookup ((k₀, v₀) :: rest) k' = if k₀ = k' then some v₀ else alookup rest k'
              from rfl,
            if_neg (by rw [h0]; exact h)]
    · rw [show mapSet ((k₀, v₀) :: rest) k v = (k₀, v₀) :: mapSet rest k v by simp [mapSet, h0],
          show alookup ((k₀, v₀) :: mapSet rest k v) k'
            = if k₀ = k' then some v₀ else alookup (mapSet rest k v) k' from rfl,
          show alookup ((k₀, v₀) :: rest) k' = if k₀ = k' then some v₀ else alookup rest k'
            from rfl, ih]
      by_cases h1 : k₀ = k'
      · rw [if_pos h1, if_neg (fun hc : k = k' => h0 (h1.trans hc.symm)), if_pos h1]
      · rw [if_neg h1, if_neg h1]

theorem insertAll_cons (m : List (String × RotateAccountEntry)) (e : RotateAccountEntry)
    (l : List RotateAccountEntry) :
    insertAll m (e :: l) = insertAll (mapSet m (accountKey e) e) l := rfl

theorem alookup_insertAll (l : List RotateAccountEntry) :
    ∀ (m : List (String × RotateAccountEntry)) (k : String),
      alookup (insertAll m l) k = oor (alookup (insertAll [] l) k) (alookup m k) := by
  induction l with
  | nil => intro m k; simp [insertAll, alookup, oor]
  | cons e l ih =>
    intro m k
    rw [insertAll_cons, insertAll_cons, ih (mapSet m (accountKey e) e) k,
        ih (mapSet [] (accountKey e) e) k, alookup_mapSet, alookup_mapSet]
    cases alookup (insertAll [] l) k <;>
      by_cases hk : accountKey e = k <;>
        simp [oor, hk, alookup]

theorem alookup_insertAll_nil_isSome (l : List RotateAccountEntry) (k : String) :
    (alookup (insertAll [] l) k).isSome = true ↔ ∃ e ∈ l, accountKey e = k := by
  induction l with
  | nil => simp [insertAll, alookup]
  | cons e l ih =>
    rw [insertAll_cons, alookup_insertAll l (mapSet [] (accountKey e) e) k, alookup_mapSet]
    cases h : alookup (insertAll [] l) k with
    | some v =>
      have : ∃ x ∈ l, accountKey x = k := ih.mp (by simp [h])
      obtain ⟨x, hx, hxk⟩ := this
      simp only [oor]
      constructor
      · intro _; exact ⟨x, List.mem_cons_of_mem _ hx, hxk⟩
      · intro _; rfl
    | none =>
      have hno : ¬ ∃ x ∈ l, accountKey x = k := fun hc => by
        have := ih.mpr hc; rw [h] at this; simp at this
      by_cases hk : accountKey e = k
      · simp only [oor, hk, if_pos rfl]
        constructor
        · intro _; exact ⟨e, List.mem_cons_self _ _, hk⟩
        · intro _; rfl
      · simp only [oor, if_neg hk, alookup]
        constructor
        · intro hfalse; simp at hfalse
        · rintro ⟨x, hx, hxk⟩
          rcases List.mem_cons.mp hx with h1 | h1
          · subst h1; exact absurd hxk hk
          · exact absurd ⟨x, h1, hxk⟩ hno

theorem alookup_some_mem {α : Type} {m : List (String × α)} {k : String} {v : α}
    (h : alookup m k = some v) : (k, v) ∈ m := by
  induction m with
  | nil => simp [alookup] at h
  | cons p rest ih =>
    obtain ⟨k₀, v₀⟩ := p
    by_cases hk : k₀ = k
    · subst hk
      simp [alookup] at h
      subst h
      exact List.mem_cons_self _ _
    · simp [alookup, hk] at h
      exact List.mem_cons_of_mem _ (ih h)

theorem mkeys_cons {α : Type} (p : String × α) (m : List (String × α)) :
    mkeys (p :: m) = p.1 :: mkeys m := rfl

theorem alookup_of_mem_nodup {α : Type} {m : List (String × α)} {k : String} {v : α}
    (hnd : (mkeys m).Nodup) (h : (k, v) ∈ m) : alookup m k = some v := by
  induction m with
  | nil => simp at h
  | cons p rest ih =>
    obtain ⟨k₀, v₀⟩ := p
    rw [mkeys_cons, List.nodup_cons] at hnd
    rcases List.mem_cons.mp h with h1 | h1
    · cases h1
      rw [show alookup ((k, v) :: rest) k = if k = k then some v else alookup rest k from rfl]
      simp
    · have hk : k₀ ≠ k := by
        intro he
        subst he
        exact hnd.1 (List.mem_map.mpr ⟨(k₀, v), h1, rfl⟩)
      rw [show alookup ((k₀, v₀) :: rest) k = if k₀ = k then some v₀ else alookup rest k
            from rfl, if_neg hk]
      exact ih hnd.2 h1

theorem mem_mkeys_mapSet {α : Type} (m : List (String × α)) (k k' : String) (v : α) :
    k' ∈ mkeys (mapSet m k v) ↔ k' = k ∨ k' ∈ mkeys m := by
  induction m with
  | nil => simp [mapSet, mkeys]
  | cons p rest ih =>
    obtain ⟨k₀, v₀⟩ := p
    by_cases h0 : k₀ = k
    · subst h0
      simp [mapSet, mkeys]
    · simp [mapSet, h0, mkeys] at ih ⊢
      tauto

theorem nodup_mkeys_mapSet {α : Type} {m : List (String × α)} (k : String) (v : α)
    (hnd : (mkeys m).Nodup) : (mkeys (mapSet m k v)).Nodup := by
  induction m with
  | nil => simp [mapSet, mkeys]
  | cons p rest ih =>
    obtain ⟨k₀, v₀⟩ := p
    rw [mkeys_cons, List.nodup_cons] at hnd
    by_cases h0 : k₀ = k
    · subst h0
      rw [show mapSet ((k₀, v₀) :: rest) k₀ v = (k₀, v) :: rest by simp [mapSet],
          mkeys_cons, List.nodup_cons]
      exact hnd
    · rw [show mapSet ((k₀, v₀) :: rest) k v = (k₀, v₀) :: mapSet rest k v by
            simp [mapSet, h0],
          mkeys_cons, List.nodup_cons]
      refine ⟨fun hc => ?_, ih hnd.2⟩
      rcases (mem_mkeys_mapSet rest k k₀ v).mp hc with h1 | h1
      · exact h0 h1
      · exact hnd.1 h1

theorem nodup_mkeys_insertAll (l : List RotateAccountEntry) :
    ∀ {m : List (String × RotateAccountEntry)}, (mkeys m).Nodup →
      (mkeys (insertAll m l)).Nodup := by
  induction l with
  | nil => intro m h; exact h
  | cons e l ih =>
    intro m h
    rw [insertAll_cons]
    exact ih (nodup_mkeys_mapSet _ _ h)

theorem mapInv_mapSet {m : List (String × RotateAccountEntry)} (hm : mapInv m)
    (v : RotateAccountEntry) : mapInv (mapSet m (accountKey v) v) := by
  induction m with
  | nil =>
    intro p hp
    simp [mapSet] at hp
    subst hp; rfl
  | cons q rest ih =>
    obtain ⟨k₀, v₀⟩ := q
    have hrest : mapInv rest := fun p hp => hm p (List.mem_cons_of_mem _ hp)
    by_cases h0 : k₀ = accountKey v
    · intro p hp
      rw [show mapSet ((k₀, v₀) :: rest) (accountKey v) v = (accountKey v, v) :: rest by
        simp [mapSet, h0]] at hp
      rcases List.mem_cons.mp hp with h1 | h1
      · subst h1; rfl
      · exact hm p (List.mem_cons_of_mem _ h1)
    · intro p hp
      rw [show mapSet ((k₀, v₀) :: rest) (accountKey v) v
            = (k₀, v₀) :: mapSet rest (accountKey v) v by simp [mapSet, h0]] at hp
      rcases List.mem_cons.mp hp with h1 | h1
      · subst h1; exact hm (k₀, v₀) (List.mem_cons_self _ _)
      · exact ih hrest p h1

theorem mapInv_insertAll (l : List RotateAccountEntry) :
    ∀ {m : List (String × RotateAccountEntry)}, mapInv m → mapInv (insertAll m l) := by
  induction l with
  | nil => intro m h; exact h
  | cons e l ih =>
    intro m h
    rw [insertAll_cons]
    exact ih (mapInv_mapSet h e)

theorem mapInv_nil : mapInv [] := by
  intro p hp; simp at hp

theorem mem_mvalues_iff {m : List (String × RotateAccountEntry)} (hinv : mapInv m)
    (hnd : (mkeys m).Nodup) (e : RotateAccountEntry) :
    e ∈ mvalues m ↔ alookup m (accountKey e) = some e := by
  constructor
  · intro h
    obtain ⟨p, hp, hpe⟩ := List.mem_map.mp h
    obtain ⟨k, v⟩ := p
    simp only at hpe
    subst hpe
    have hk : k = accountKey v := hinv (k, v) hp
    rw [← hk]
    exact alookup_of_mem_nodup hnd hp
  · intro h
    exact List.mem_map.mpr ⟨(accountKey e, e), alookup_some_mem h, rfl⟩

theorem mem_mvalues_mapSet {α : Type} {m : List (String × α)} {k : String} {v e : α}
    (h : e ∈ mvalues (mapSet m k v)) : e = v ∨ e ∈ mvalues m := by
  induction m with
  | nil => simp [mapSet, mvalues] at h; exact Or.inl h
  | cons p rest ih =>
    obtain ⟨k₀, v₀⟩ := p
    by_cases h0 : k₀ = k
    · subst h0
      rw [show mapSet ((k₀, v₀) :: rest) k₀ v = (k₀, v) :: rest by simp [mapSet]] at h
      rcases List.mem_cons.mp h with h1 | h1
      · exact Or.inl h1
      · exact Or.inr (List.mem_cons_of_mem _ h1)
    · rw [show mapSet ((k₀, v₀) :: rest) k v = (k₀, v₀) :: mapSet rest k v by
        simp [mapSet, h0]] at h
      rcases List.mem_cons.mp h with h1 | h1
      · exact Or.inr (List.mem_cons.mpr (Or.inl h1))
      · rcases ih h1 with h2 | h2
        · exact Or.inl h2
        · exact Or.inr (List.mem_cons_of_mem _ h2)

theorem mem_mvalues_insertAll (l : List RotateAccountEntry) :
    ∀ {m : List (String × RotateAccountEntry)} {e : RotateAccountEntry},
      e ∈ mvalues (insertAll m l) → e ∈ mvalues m ∨ e ∈ l := by
  induction l with
  | nil => intro m e h; exact Or.inl h
  | cons x l ih =>
    intro m e h
    rw [insertAll_cons] at h
    rcases ih h with h1 | h1
    · rcases mem_mvalues_mapSet h1 with h2 | h2
      · exact Or.inr (h2 ▸ List.mem_cons_self _ _)
      · exact Or.inl h2
    · exact Or.inr (List.mem_cons_of_mem _ h1)

theorem insertAll_cons_of_fresh {k : String} {v : RotateAccountEntry}
    {l : List RotateAccountEntry} (h : ∀ e ∈ l, accountKey e ≠ k) :
    ∀ m, insertAll ((k, v) :: m) l = (k, v) :: insertAll m l := by
  induction l with
  | nil => intro m; rfl
  | cons e l ih =>
    intro m
    have hk : k ≠ accountKey e := fun hc => h e (List.mem_cons_self _ _) hc.symm
    rw [insertAll_cons,
        show mapSet ((k, v) :: m) (accountKey e) e = (k, v) :: mapSet m (accountKey e) e by
          simp [mapSet, hk],
        ih (fun x hx => h x (List.mem_cons_of_mem _ hx)), insertAll_cons]

theorem insertAll_nil_mvalues {m : List (String × RotateAccountEntry)} (hinv : mapInv m)
    (hnd : (mkeys m).Nodup) : insertAll [] (mvalues m) = m := by
  induction m with
  | nil => rfl
  | cons p rest ih =>
    obtain ⟨k, v⟩ := p
    have hk : k = accountKey v := hinv (k, v) (List.mem_cons_self _ _)
    have hrest : mapInv rest := fun q hq => hinv q (List.mem_cons_of_mem _ hq)
    have hndr := (List.nodup_cons.mp hnd).2
    have hkr : k ∉ mkeys rest := (List.nodup_cons.mp hnd).1
    have hfresh : ∀ x ∈ mvalues rest, accountKey x ≠ k := by
      intro x hx hc
      obtain ⟨q, hq, hqx⟩ := List.mem_map.mp hx
      obtain ⟨k', x'⟩ := q
      simp only at hqx
      subst hqx
      have hkeq : k' = accountKey x' := hrest (k', x') hq
      apply hkr
      rw [← hc, ← hkeq]
      exact List.mem_map.mpr ⟨(k', x'), hq, rfl⟩
    rw [show mvalues ((k, v) :: rest) = v :: mvalues rest from rfl, insertAll_cons,
        show mapSet ([] : List (String × RotateAccountEntry)) (accountKey v) v
          = [(accountKey v, v)] from rfl, ← hk,
        insertAll_cons_of_fresh hfresh, ih hrest hndr]

/-! ### Merge-level lemmas for `writeRotationIndex` -/

theorem oor_none {α : Type} (b : Option α) : oor none b = b := rfl

theorem oor_some {α : Type} (a : α) (b : Option α) : oor (some a) b = some a := rfl

theorem alookup_mergeMap (A B : List RotateAccountEntry) (k : String) :
    alookup (insertAll (insertAll [] A) B) k =
      oor (alookup (insertAll [] B) k) (alookup (insertAll [] A) k) :=
  alookup_insertAll B (insertAll [] A) k

theorem mapInv_mergeMap (A B : List RotateAccountEntry) :
    mapInv (insertAll (insertAll [] A) B) :=
  mapInv_insertAll B (mapInv_insertAll A mapInv_nil)

theorem nodup_mergeMap (A B : List RotateAccountEntry) :
    (mkeys (insertAll (insertAll [] A) B)).Nodup :=
  nodup_mkeys_insertAll B (nodup_mkeys_insertAll A (by simp [mkeys]))

theorem mem_mergeAccounts_key (A B : List RotateAccountEntry) (k : String) :
    (∃ e ∈ mergeAccounts A B, accountKey e = k) ↔
      ((∃ a ∈ A, accountKey a = k) ∨ (∃ b ∈ B, accountKey b = k)) := by
  have hinv := mapInv_mergeMap A B
  have hnd := nodup_mergeMap A B
  constructor
  · rintro ⟨e, he, rfl⟩
    have hl := (mem_mvalues_iff hinv hnd e).mp he
    rw [alookup_mergeMap] at hl
    cases hB : alookup (insertAll [] B) (accountKey e) with
    | some v =>
      exact Or.inr ((alookup_insertAll_nil_isSome B (accountKey e)).mp (by rw [hB]; rfl))
    | none =>
      rw [hB, oor_none] at hl
      exact Or.inl ((alookup_insertAll_nil_isSome A (accountKey e)).mp (by rw [hl]; rfl))
  · intro h
    have hms : (alookup (insertAll (insertAll [] A) B) k).isSome = true := by
      rw [alookup_mergeMap]
      cases hB : alookup (insertAll [] B) k with
      | some v => rw [oor_some]; rfl
      | none =>
        rw [oor_none]
        rcases h with ⟨a, ha, hak⟩ | ⟨b, hb, hbk⟩
        · exact (alookup_insertAll_nil_isSome A k).mpr ⟨a, ha, hak⟩
        · have := (alookup_insertAll_nil_isSome B k).mpr ⟨b, hb, hbk⟩
          rw [hB] at this
          simp at this
    obtain ⟨v, hv⟩ := Option.isSome_iff_exists.mp hms
    have hmem := alookup_some_mem hv
    have hkey : k = accountKey v := hinv (k, v) hmem
    exact ⟨v, List.mem_map.mpr ⟨(k, v), hmem, rfl⟩, hkey.symm⟩

theorem alookup_insertAll_nil_of_unique {B : List RotateAccountEntry}
    {b : RotateAccountEntry} (hb : b ∈ B)
    (huniq : ∀ b' ∈ B, accountKey b' = accountKey b → b' = b) :
    alookup (insertAll [] B) (accountKey b) = some b := by
  induction B with
  | nil => simp at hb
  | cons e B ih =>
    rw [insertAll_cons, alookup_insertAll B (mapSet [] (accountKey e) e) (accountKey b),
        alookup_mapSet]
    by_cases hbB : b ∈ B
    · rw [ih hbB (fun b' hb' hk => huniq b' (List.mem_cons_of_mem _ hb') hk), oor_some]
    · have hbe : b = e := by
        rcases List.mem_cons.mp hb with h | h
        · exact h
        · exact absurd h hbB
      subst hbe
      have hnone : alookup (insertAll [] B) (accountKey b) = none := by
        cases hL : alookup (insertAll [] B) (accountKey b) with
        | none => rfl
        | some v =>
          obtain ⟨x, hx, hxk⟩ :=
            (alookup_insertAll_nil_isSome B (accountKey b)).mp (by rw [hL]; rfl)
          exact absurd ((huniq x (List.mem_cons_of_mem _ hx) hxk) ▸ hx) hbB
      rw [hnone, oor_none, if_pos rfl]

/-- C3: the merged accounts list written by `writeRotationIndex` has exactly
the keys of the well-formed prior entries united with the keys of the fresh
scan; a fresh entry (with a key unique in the scan) is itself written; and
every well-formed prior entry still has an entry under its key — nothing is
deleted. -/
theorem writeRotationIndex_merge_monotone (genAt : String) (prev : Option JsonVal)
    (index : RotateIndex) :
    (∀ k : String,
        (∃ e ∈ (writeRotationIndex genAt prev index).accounts, accountKey e = k) ↔
          ((∃ a ∈ decodePrevAccounts prev, accountKey a = k) ∨
           (∃ b ∈ index.accounts, accountKey b = k)))
    ∧ (∀ b ∈ index.accounts,
        (∀ b' ∈ index.accounts, accountKey b' = accountKey b → b' = b) →
        b ∈ (writeRotationIndex genAt prev index).accounts)
    ∧ (∀ a ∈ decodePrevAccounts prev,
        ∃ e ∈ (writeRotationIndex genAt prev index).accounts,
          accountKey e = accountKey a) := by
  have hacc : (writeRotationIndex genAt prev index).accounts
      = mergeAccounts (decodePrevAccounts prev) index.accounts := rfl
  refine ⟨?_, ?_, ?_⟩
  · intro k
    rw [hacc]
    exact mem_mergeAccounts_key _ _ k
  · intro b hb huniq
    rw [hacc]
    show b ∈ mvalues (insertAll (insertAll [] (decodePrevAccounts prev)) index.accounts)
    rw [mem_mvalues_iff (mapInv_mergeMap _ _) (nodup_mergeMap _ _),
        alookup_mergeMap, alookup_insertAll_nil_of_unique hb huniq, oor_some]
  · intro a ha
    rw [hacc]
    exact (mem_mergeAccounts_key _ _ (accountKey a)).mpr (Or.inl ⟨a, ha, rfl⟩)

theorem decodeEntry_isWellFormed {j : JsonVal} {e : RotateAccountEntry}
    (h : decodeEntry j = some e) : isWellFormedPrev j = true := by
  cases j with
  | jobj fields =>
    cases h1 : objGet fields "email" with
    | none => simp [decodeEntry, h1] at h
    | some je =>
      cases h2 : objGet fields "file" with
      | none => cases je <;> simp [decodeEntry, h1, h2] at h
      | some jf =>
        cases je <;> cases jf <;>
          simp [decodeEntry, isWellFormedPrev, h1, h2] at h ⊢
  | jnull => exact Option.noConfusion h
  | jbool b => exact Option.noConfusion h
  | jnum n => exact Option.noConfusion h
  | jstr s => exact Option.noConfusion h
  | jarr l => exact Option.noConfusion h

/-- C10: the persisted-index filter drops exactly the malformed prior entries:
a prior `accounts` element that is not an object with string `email` and
string `file` decodes to nothing, and every merged entry comes either from the
fresh index or from a well-formed prior element. -/
theorem writeRotationIndex_drops_malformed :
    (∀ j : JsonVal, isWellFormedPrev j = false → decodeEntry j = none)
    ∧ (∀ (genAt : String) (prev : Option JsonVal) (index : RotateIndex)
        (e : RotateAccountEntry),
        e ∈ (writeRotationIndex genAt prev index).accounts →
          e ∈ index.accounts ∨
            ∃ j ∈ prevAccountsArray prev, isWellFormedPrev j = true ∧ decodeEntry j = some e) := by
  constructor
  · intro j h
    cases hd : decodeEntry j with
    | none => rfl
    | some e => rw [decodeEntry_isWellFormed hd] at h; exact Bool.noConfusion h
  · intro genAt prev index e he
    rw [show (writeRotationIndex genAt prev index).accounts
        = mvalues (insertAll (insertAll [] (decodePrevAccounts prev)) index.accounts)
        from rfl] at he
    rcases mem_mvalues_insertAll index.accounts he with h1 | h1
    · rcases mem_mvalues_insertAll (decodePrevAccounts prev) h1 with h2 | h2
      · simp [mvalues] at h2
      · obtain ⟨j, hj, hje⟩ := List.mem_filterMap.mp h2
        exact Or.inr ⟨j, hj, decodeEntry_isWellFormed hje, hje⟩
    · exact Or.inl h1

/-! ### Count-partition lemmas (claim C5) -/

theorem statusIs_eq_true {e : RotateAccountEntry} {s : String} :
    statusIs e s = true ↔ e.status = some (.jstr s) := by
  cases hst : e.status with
  | none => simp [statusIs, hst]
  | some j => cases j <;> simp [statusIs, hst]

theorem statusIs_of_jstr (e : RotateAccountEntry) (t s : String)
    (h : e.status = some (.jstr t)) : statusIs e s = (t == s) := by
  unfold statusIs
  rw [h]

theorem countStatus_cons (e : RotateAccountEntry) (l : List RotateAccountEntry)
    (s : String) :
    countStatus (e :: l) s = (if statusIs e s then 1 else 0) + countStatus l s := by
  unfold countStatus
  rw [List.filter_cons]
  by_cases h : statusIs e s <;> simp [h, Nat.add_comm]

theorem countStatus_partition (l : List RotateAccountEntry)
    (h : ∀ e ∈ l, hasKnownStatus e = true) :
    countStatus l "active" + countStatus l "expired" + countStatus l "disabled"
      + countStatus l "invalid" = l.length := by
  induction l with
  | nil => rfl
  | cons e l ih =>
    have he := h e (List.mem_cons_self _ _)
    have hrest := ih (fun x hx => h x (List.mem_cons_of_mem _ hx))
    rw [countStatus_cons, countStatus_cons, countStatus_cons, countStatus_cons,
        List.length_cons]
    have hex : ∃ t, e.status = some (.jstr t) ∧
        (t = "active" ∨ t = "expired" ∨ t = "disabled" ∨ t = "invalid") := by
      unfold hasKnownStatus at he
      simp only [Bool.or_eq_true] at he
      rcases he with ((h1 | h1) | h1) | h1
      · exact ⟨"active", statusIs_eq_true.mp h1, Or.inl rfl⟩
      · exact ⟨"expired", statusIs_eq_true.mp h1, Or.inr (Or.inl rfl)⟩
      · exact ⟨"disabled", statusIs_eq_true.mp h1, Or.inr (Or.inr (Or.inl rfl))⟩
      · exact ⟨"invalid", statusIs_eq_true.mp h1, Or.inr (Or.inr (Or.inr rfl))⟩
    obtain ⟨t, hst, ht⟩ := hex
    rw [statusIs_of_jstr e t "active" hst, statusIs_of_jstr e t "expired" hst,
        statusIs_of_jstr e t "disabled" hst, statusIs_of_jstr e t "invalid" hst]
    rcases ht with rfl | rfl | rfl | rfl <;> simp <;> omega

theorem hasKnownStatus_classify (now : Int) (dp : String → Option Int) (file : String)
    (content : Option JsonVal) : hasKnownStatus (classify now dp file content) = true := by
  have hbody : ∀ data : JsonVal,
      hasKnownStatus (
        let email := readEmailOr data file
        let expired := readExpiredStr data
        if readDisabled data then
          { email := email, file := file, expired := expired.map .jstr,
            status := some (.jstr "disabled") }
        else if expiredInPast now dp expired then
          { email := email, file := file, expired := expired.map .jstr,
            status := some (.jstr "expired") }
        else
          { email := email, file := file, expired := expired.map .jstr,
            status := some (.jstr "active") }) = true := by
    intro data
    by_cases h1 : readDisabled data = true
    · simp only [h1]
      rfl
    · rw [Bool.not_eq_true] at h1
      by_cases h2 : expiredInPast now dp (readExpiredStr data) = true
      · simp only [h1, h2]
        rfl
      · rw [Bool.not_eq_true] at h2
        simp only [h1, h2]
        rfl
  rcases content with _ | j
  · rfl
  · cases j with
    | jnull => rfl
    | jbool b => exact hbody (.jbool b)
    | jnum n => exact hbody (.jnum n)
    | jstr s => exact hbody (.jstr s)
    | jarr l => exact hbody (.jarr l)
    | jobj fl => exact hbody (.jobj fl)

/-- C5 counterexample: the concrete prior index file `prevWeirdStatus` holds a
single well-formed entry whose `status` string is `"weird"`; merging it (with
an empty fresh scan) writes an index whose `total` is 1 while the four counts
sum to 0 — the counts do not partition `accounts`. -/
theorem rotationIndex_counts_counterexample :
    (writeRotationIndex "g" (some prevWeirdStatus)
        (buildRotationIndex 0 dpNone "t" "/d" [])).total = 1
    ∧ (writeRotationIndex "g" (some prevWeirdStatus)
          (buildRotationIndex 0 dpNone "t" "/d" [])).active
        + (writeRotationIndex "g" (some prevWeirdStatus)
            (buildRotationIndex 0 dpNone "t" "/d" [])).expired
        + (writeRotationIndex "g" (some prevWeirdStatus)
            (buildRotationIndex 0 dpNone "t" "/d" [])).disabled
        + (writeRotationIndex "g" (some prevWeirdStatus)
            (buildRotationIndex 0 dpNone "t" "/d" [])).invalid = 0 :=
  ⟨rfl, rfl⟩

/-- C5 (amended): every index satisfies `total = accounts.length` and each
count equals the per-status filter length; the four counts moreover sum to
`total` for every index built by `buildRotationIndex`, and for every index
written by `writeRotationIndex` over a fresh scan provided each well-formed
prior entry's `status` is one of the four classification strings. -/
theorem rotationIndex_counts_amended :
    (∀ (now : Int) (dp : String → Option Int) (genAt dir : String)
        (listing : List (String × Option JsonVal)) (idx : RotateIndex),
      idx = buildRotationIndex now dp genAt dir listing →
        idx.total = idx.accounts.length
        ∧ idx.active = countStatus idx.accounts "active"
        ∧ idx.expired = countStatus idx.accounts "expired"
        ∧ idx.disabled = countStatus idx.accounts "disabled"
        ∧ idx.invalid = countStatus idx.accounts "invalid"
        ∧ idx.active + idx.expired + idx.disabled + idx.invalid = idx.total)
    ∧ (∀ (wAt : String) (prev : Option JsonVal) (now : Int) (dp : String → Option Int)
        (genAt dir : String) (listing : List (String × Option JsonVal))
        (out : RotateIndex),
      (∀ e ∈ decodePrevAccounts prev, hasKnownStatus e = true) →
      out = writeRotationIndex wAt prev (buildRotationIndex now dp genAt dir listing) →
        out.total = out.accounts.length
        ∧ out.active = countStatus out.accounts "active"
        ∧ out.expired = countStatus out.accounts "expired"
        ∧ out.disabled = countStatus out.accounts "disabled"
        ∧ out.invalid = countStatus out.accounts "invalid"
        ∧ out.active + out.expired + out.disabled + out.invalid = out.total) := by
  constructor
  · rintro now dp genAt dir listing idx rfl
    refine ⟨rfl, rfl, rfl, rfl, rfl, ?_⟩
    refine countStatus_partition _ (fun e he => ?_)
    obtain ⟨f, _, rfl⟩ := List.mem_map.mp he
    exact hasKnownStatus_classify now dp (pathJoin dir f.1) f.2
  · rintro wAt prev now dp genAt dir listing out hprev rfl
    refine ⟨rfl, rfl, rfl, rfl, rfl, ?_⟩
    refine countStatus_partition _ (fun e he => ?_)
    unfold mergeAccounts at he
    rcases mem_mvalues_insertAll _ he with h1 | h1
    · rcases mem_mvalues_insertAll _ h1 with h2 | h2
      · simp [mvalues] at h2
      · exact hprev e h2
    · obtain ⟨f, _, rfl⟩ := List.mem_map.mp h1
      exact hasKnownStatus_classify now dp (pathJoin dir f.1) f.2

/-! ### Idempotence of the Rotation Indexer (claim C6) -/

theorem expiredInPast_congr {now₁ now₂ : Int} (dp : String → Option Int)
    (x : Option String) (hle : now₁ ≤ now₂)
    (hcross : ∀ s t, x = some s → dp s = some t → (t < now₁ ∨ now₂ ≤ t)) :
    expiredInPast now₁ dp x = expiredInPast now₂ dp x := by
  cases x with
  | none => rfl
  | some s =>
    dsimp only [expiredInPast]
    cases hdp : dp s with
    | none => rfl
    | some t =>
      have hd : decide (t < now₁) = decide (t < now₂) := by
        rw [decide_eq_decide]
        rcases hcross s t rfl hdp with h | h
        · exact iff_of_true h (lt_of_lt_of_le h hle)
        · exact iff_of_false (not_lt.mpr (le_trans hle h)) (not_lt.mpr h)
      dsimp only
      rw [hd]

theorem classify_congr_now {now₁ now₂ : Int} (dp : String → Option Int) (file : String)
    (content : Option JsonVal) (hle : now₁ ≤ now₂)
    (hcross : ∀ (j : JsonVal) (s : String) (t : Int), content = some j →
        readExpiredStr j = some s → dp s = some t → (t < now₁ ∨ now₂ ≤ t)) :
    classify now₁ dp file content = classify now₂ dp file content := by
  rcases content with _ | j
  · rfl
  · have hexp : expiredInPast now₁ dp (readExpiredStr j)
        = expiredInPast now₂ dp (readExpiredStr j) :=
      expiredInPast_congr dp _ hle (fun s t hs ht => hcross j s t rfl hs ht)
    cases j with
    | jnull => rfl
    | jbool b => dsimp only [classify]; rw [hexp]
    | jnum n => dsimp only [classify]; rw [hexp]
    | jstr s => dsimp only [classify]; rw [hexp]
    | jarr l => dsimp only [classify]; rw [hexp]
    | jobj fl => dsimp only [classify]; rw [hexp]

theorem decodeEntry_entryToJson (e : RotateAccountEntry) :
    decodeEntry (entryToJson e) = some e := by
  rcases e with ⟨em, f, exp, st⟩
  cases exp <;> cases st <;> rfl

theorem decodePrevAccounts_indexToJson (i : RotateIndex) :
    decodePrevAccounts (some (indexToJson i)) = i.accounts := by
  have harr : prevAccountsArray (some (indexToJson i)) = i.accounts.map entryToJson := rfl
  show (prevAccountsArray (some (indexToJson i))).filterMap decodeEntry = i.accounts
  rw [harr, List.filterMap_map]
  have hself : ∀ l : List RotateAccountEntry,
      l.filterMap (fun a => decodeEntry (entryToJson a)) = l := by
    intro l
    induction l with
    | nil => rfl
    | cons a l ih => simp [List.filterMap_cons, decodeEntry_entryToJson a, ih]
  exact hself i.accounts

theorem oor_self_absorb {α : Type} (a b : Option α) : oor a (oor a b) = oor a b := by
  cases a <;> rfl

theorem alookup_merge_idem (A B : List RotateAccountEntry) (k : String) :
    alookup (insertAll (insertAll [] (mergeAccounts A B)) B) k
      = alookup (insertAll (insertAll [] A) B) k := by
  have hreb : insertAll [] (mergeAccounts A B) = insertAll (insertAll [] A) B := by
    unfold mergeAccounts
    exact insertAll_nil_mvalues (mapInv_mergeMap A B) (nodup_mergeMap A B)
  calc alookup (insertAll (insertAll [] (mergeAccounts A B)) B) k
      = oor (alookup (insertAll [] B) k) (alookup (insertAll [] (mergeAccounts A B)) k) :=
        alookup_insertAll B _ k
    _ = oor (alookup (insertAll [] B) k) (alookup (insertAll (insertAll [] A) B) k) := by
        rw [hreb]
    _ = oor (alookup (insertAll [] B) k)
          (oor (alookup (insertAll [] B) k) (alookup (insertAll [] A) k)) := by
        rw [alookup_mergeMap]
    _ = oor (alookup (insertAll [] B) k) (alookup (insertAll [] A) k) :=
        oor_self_absorb _ _
    _ = alookup (insertAll (insertAll [] A) B) k := (alookup_mergeMap A B k).symm

theorem mem_mergeAccounts_idem (A B : List RotateAccountEntry) (e : RotateAccountEntry) :
    e ∈ mergeAccounts (mergeAccounts A B) B ↔ e ∈ mergeAccounts A B := by
  constructor
  · intro h
    have h1 := (mem_mvalues_iff (mapInv_mergeMap (mergeAccounts A B) B)
      (nodup_mergeMap (mergeAccounts A B) B) e).mp h
    rw [alookup_merge_idem] at h1
    exact (mem_mvalues_iff (mapInv_mergeMap A B) (nodup_mergeMap A B) e).mpr h1
  · intro h
    have h1 := (mem_mvalues_iff (mapInv_mergeMap A B) (nodup_mergeMap A B) e).mp h
    rw [← alookup_merge_idem] at h1
    exact (mem_mvalues_iff (mapInv_mergeMap (mergeAccounts A B) B)
      (nodup_mergeMap (mergeAccounts A B) B) e).mpr h1

/-- C6 counterexample: build-and-write run twice against the unchanged
directory `listingExp` (writing to the same output file, whose first contents
are merged by the second run). The artifact's `expired` timestamp (100) lies
between the first run's clock (50) and the second run's clock (150), so the
first written index records the artifact `active` while the second records it
`expired`: the accounts sets differ even ignoring `generated_at`. -/
theorem rotationIndexer_idempotent_counterexample :
    entryExpired ∈ idxRunTwo.accounts ∧ entryExpired ∉ idxRunOne.accounts := by
  constructor
  · have h : idxRunTwo.accounts = [entryExpired] := rfl
    rw [h]
    exact List.mem_singleton.mpr rfl
  · intro h
    have h1 : idxRunOne.accounts = [entryActive] := rfl
    rw [h1] at h
    exact Bool.noConfusion (congrArg (fun x => statusIs x "expired") (List.mem_singleton.mp h))

/-- C6 (amended): two runs of the Rotation Indexer against an unchanged
directory (the second merging the first's written file) produce identical
accounts sets — ignoring `generated_at` — provided no artifact's parsed
`expired` timestamp lies between the two runs' clock readings (at or after the
first, before the second); the counterexample above forces that proviso. -/
theorem rotationIndexer_idempotent_amended
    (now₁ now₂ : Int) (dp : String → Option Int) (g₁ g₂ w₁ w₂ dir : String)
    (listing : List (String × Option JsonVal)) (prev : Option JsonVal)
    (hle : now₁ ≤ now₂)
    (hcross : ∀ f ∈ listing, ∀ (j : JsonVal) (s : String) (t : Int),
        f.2 = some j → readExpiredStr j = some s → dp s = some t →
        (t < now₁ ∨ now₂ ≤ t)) :
    ∀ e : RotateAccountEntry,
      e ∈ (writeRotationIndex w₂
          (some (indexToJson (writeRotationIndex w₁ prev
            (buildRotationIndex now₁ dp g₁ dir listing))))
          (buildRotationIndex now₂ dp g₂ dir listing)).accounts
      ↔ e ∈ (writeRotationIndex w₁ prev
          (buildRotationIndex now₁ dp g₁ dir listing)).accounts := by
  intro e
  have hbuild : ∀ (n : Int) (g : String), (buildRotationIndex n dp g dir listing).accounts
      = (listing.filter (fun f => isCodexJsonName f.1)).map
          (fun f => classify n dp (pathJoin dir f.1) f.2) := fun n g => rfl
  have hBeq : (buildRotationIndex now₂ dp g₂ dir listing).accounts
      = (buildRotationIndex now₁ dp g₁ dir listing).accounts := by
    rw [hbuild, hbuild]
    refine List.map_congr_left (fun f hf => ?_)
    exact (classify_congr_now dp (pathJoin dir f.1) f.2 hle
      (fun j s t hj hs ht => hcross f (List.mem_of_mem_filter hf) j s t hj hs ht)).symm
  have hacc2 : (writeRotationIndex w₂
        (some (indexToJson (writeRotationIndex w₁ prev
          (buildRotationIndex now₁ dp g₁ dir listing))))
        (buildRotationIndex now₂ dp g₂ dir listing)).accounts
      = mergeAccounts
          (mergeAccounts (decodePrevAccounts prev)
            (buildRotationIndex now₁ dp g₁ dir listing).accounts)
          (buildRotationIndex now₁ dp g₁ dir listing).accounts := by
    show mergeAccounts
        (decodePrevAccounts (some (indexToJson (writeRotationIndex w₁ prev
          (buildRotationIndex now₁ dp g₁ dir listing)))))
        (buildRotationIndex now₂ dp g₂ dir listing).accounts = _
    rw [decodePrevAccounts_indexToJson, hBeq]
    rfl
  rw [hacc2]
  exact mem_mergeAccounts_idem _ _ e

/-! ### Batch orchestrator lemmas (claims C1, C2, C7, C8) -/

theorem foldl_push {α β : Type} (f : α → β) (l : List α) :
    ∀ acc : List β, l.foldl (fun r a => r ++ [f a]) acc = acc ++ l.map f := by
  induction l with
  | nil => intro acc; simp
  | cons a l ih =>
    intro acc
    rw [List.foldl_cons, ih]
    simp

theorem runAuthBatch_map (d : String)
    (batch : List (AccountCredential × AccountBehavior)) :
    runAuthBatch d batch = batch.map (fun ab => processAccount d ab.1 ab.2) := by
  unfold runAuthBatch
  rw [foldl_push]
  exact List.nil_append _

theorem processAccount_email (d : String) (a : AccountCredential) (b : AccountBehavior) :
    (processAccount d a b).email = a.email := by
  unfold processAccount
  dsimp only
  repeat' split
  all_goals rfl

/-- C1: the non-dry-run orchestrator records exactly one `AuthResult` per input
account, positionally in input order, and each result's status is one of
`success`, `failed`, `skipped` — on every path of an iteration, a caught
exception included (`AccountBehavior` ranges over all outcomes). -/
theorem orchestrator_one_result_per_account (d : String)
    (batch : List (AccountCredential × AccountBehavior)) :
    (runAuthBatch d batch).length = batch.length
    ∧ (∀ i : Nat, ((runAuthBatch d batch)[i]?).map AuthResult.email
        = (batch[i]?).map (fun ab => ab.1.email))
    ∧ (∀ r ∈ runAuthBatch d batch,
        r.status = AuthStatus.success ∨ r.status = AuthStatus.failed
          ∨ r.status = AuthStatus.skipped) := by
  refine ⟨?_, ?_, ?_⟩
  · rw [runAuthBatch_map]
    exact List.length_map _ _
  · intro i
    rw [runAuthBatch_map, List.getElem?_map]
    cases batch[i]? with
    | none => rfl
    | some ab => simp [processAccount_email]
  · intro r _
    cases hst : r.status with
    | success => exact Or.inl rfl
    | failed => exact Or.inr (Or.inl rfl)
    | skipped => exact Or.inr (Or.inr rfl)

/-- Reduction of one iteration when every external call up to the status poll
returns normally: the recorded result is the reconciliation if-chain of
main.ts lines 166-239. -/
theorem processAccount_ok_branch (d : String) (a : AccountCredential)
    (b : AccountBehavior) (u : String) (fr : FlowResult) (c : Bool)
    (st : CpamcAuthStatus)
    (hsetup : b.consoleSetup = .ok ())
    (hurl : b.authUrl = .ok u)
    (hstate : ((getStateFromAuthUrl u).getD "") ≠ "")
    (hflow : b.flow = .ok fr)
    (hchal : (if fr.challenge then Except.ok true else b.detect) = .ok c)
    (hpoll : b.poll = .ok st) :
    processAccount d a b =
      (if fr.invalidCredentials then
        { email := a.email, plan := a.plan.getD d, status := .failed,
          code := some .LOGIN_REJECTED,
          message := some (st.message.getD "Incorrect email address or password."),
          file := none, started_at := b.startedAt, ended_at := b.endedAt }
      else if c then
        { email := a.email, plan := a.plan.getD d, status := .failed,
          code := some .CHALLENGE_REQUIRED,
          message := some (st.message.getD
            "Challenge detected (captcha/2FA/verification). Skipped account."),
          file := none, started_at := b.startedAt, ended_at := b.endedAt }
      else if st.status = .error then
        { email := a.email, plan := a.plan.getD d, status := .failed,
          code := some .CPAMC_OAUTH_FAILED,
          message := some (st.message.getD "CPAMC OAuth reported failure."),
          file := none, started_at := b.startedAt, ended_at := b.endedAt }
      else if st.status = .waiting then
        { email := a.email, plan := a.plan.getD d, status := .failed,
          code := some .CPAMC_OAUTH_FAILED,
          message := some "Timed out waiting CPAMC authentication result.",
          file := none, started_at := b.startedAt, ended_at := b.endedAt }
      else
        match b.file with
        | .error msg => catchResult d a b msg
        | .ok none =>
          { email := a.email, plan := a.plan.getD d, status := .failed,
            code := some .WRITE_FAILED,
            message := some "OAuth completed but auth file not found.",
            file := none, started_at := b.startedAt, ended_at := b.endedAt }
        | .ok (some f) =>
          { email := a.email, plan := a.plan.getD d, status := .success,
            code := none, message := none, file := some f,
            started_at := b.startedAt, ended_at := b.endedAt }) := by
  unfold processAccount
  rw [hsetup]
  dsimp only
  rw [hurl]
  dsimp only
  rw [if_neg hstate, hflow]
  dsimp only
  rw [hchal]
  dsimp only
  rw [hpoll]

/-- C2: reconciliation precedence — flow-reported invalid credentials beat
everything (`LOGIN_REJECTED` even when the console polled `success`); then a
detected challenge (`CHALLENGE_REQUIRED`); then a console `error` or `waiting`
status (`CPAMC_OAUTH_FAILED`); only with a console `success` is the artifact
path taken. -/
theorem reconciliation_precedence (d : String) (a : AccountCredential)
    (b : AccountBehavior) (u : String) (fr : FlowResult) (det : Bool)
    (st : CpamcAuthStatus)
    (hsetup : b.consoleSetup = .ok ())
    (hurl : b.authUrl = .ok u)
    (hstate : ((getStateFromAuthUrl u).getD "") ≠ "")
    (hflow : b.flow = .ok fr)
    (hdet : b.detect = .ok det)
    (hpoll : b.poll = .ok st) :
    (fr.invalidCredentials = true →
      (processAccount d a b).status = .failed
        ∧ (processAccount d a b).code = some .LOGIN_REJECTED)
    ∧ (fr.invalidCredentials = false → (fr.challenge || det) = true →
      (processAccount d a b).status = .failed
        ∧ (processAccount d a b).code = some .CHALLENGE_REQUIRED)
    ∧ (fr.invalidCredentials = false → (fr.challenge || det) = false →
      (st.status = .error ∨ st.status = .waiting) →
      (processAccount d a b).status = .failed
        ∧ (processAccount d a b).code = some .CPAMC_OAUTH_FAILED)
    ∧ (fr.invalidCredentials = false → (fr.challenge || det) = false →
      st.status = .success →
      ((∃ f, b.file = .ok (some f) ∧ (processAccount d a b).status = .success
          ∧ (processAccount d a b).file = some f)
       ∨ (b.file = .ok none ∧ (processAccount d a b).status = .failed
          ∧ (processAccount d a b).code = some .WRITE_FAILED)
       ∨ (∃ msg, b.file = .error msg
          ∧ (processAccount d a b).status = .failed))) := by
  have hchal : (if fr.challenge then Except.ok true else b.detect)
      = .ok (fr.challenge || det) := by
    cases hc : fr.challenge
    · simpa using hdet
    · rfl
  have hred := processAccount_ok_branch d a b u fr (fr.challenge || det) st
    hsetup hurl hstate hflow hchal hpoll
  refine ⟨?_, ?_, ?_, ?_⟩
  · intro hinv
    rw [hred, if_pos hinv]
    exact ⟨rfl, rfl⟩
  · intro hinv hc
    rw [hred, if_neg (by simp [hinv]), if_pos hc]
    exact ⟨rfl, rfl⟩
  · intro hinv hc hst
    rw [hred, if_neg (by simp [hinv]), if_neg (by simp [hc])]
    rcases hst with h | h
    · rw [if_pos h]
      exact ⟨rfl, rfl⟩
    · rw [if_neg (by simp [h]), if_pos h]
      exact ⟨rfl, rfl⟩
  · intro hinv hc hsucc
    rw [hred, if_neg (by simp [hinv]), if_neg (by simp [hc]),
        if_neg (by simp [hsucc]), if_neg (by simp [hsucc])]
    cases hf : b.file with
    | error msg => exact Or.inr (Or.inr ⟨msg, rfl, rfl⟩)
    | ok v =>
      cases v with
      | none => exact Or.inr (Or.inl ⟨rfl, rfl, rfl⟩)
      | some f => exact Or.inl ⟨f, rfl, rfl, rfl⟩

/-- C7: a caught exception is classified by case-insensitive substring search
of its message in the order `"management key"` → `CPAMC_LOGIN_FAILED`,
`"auth url"` → `CPAMC_LINK_NOT_FOUND`, `"timeout"` → `LOGIN_REJECTED`, else
`UNKNOWN`; a throw at any stage of an iteration yields that failed
`AuthResult`; and the batch always processes the surrounding accounts. -/
theorem exception_handling_spec :
    (∀ msg : String,
      (strContains (strLower msg) "management key" = true →
        classifyCaughtError msg = .CPAMC_LOGIN_FAILED)
      ∧ (strContains (strLower msg) "management key" = false →
          strContains (strLower msg) "auth url" = true →
        classifyCaughtError msg = .CPAMC_LINK_NOT_FOUND)
      ∧ (strContains (strLower msg) "management key" = false →
          strContains (strLower msg) "auth url" = false →
          strContains (strLower msg) "timeout" = true →
        classifyCaughtError msg = .LOGIN_REJECTED)
      ∧ (strContains (strLower msg) "management key" = false →
          strContains (strLower msg) "auth url" = false →
          strContains (strLower msg) "timeout" = false →
        classifyCaughtError msg = .UNKNOWN))
    ∧ (∀ (d msg : String) (a : AccountCredential) (b : AccountBehavior),
        (catchResult d a b msg).status = .failed
        ∧ (catchResult d a b msg).code = some (classifyCaughtError msg)
        ∧ (catchResult d a b msg).message = some msg)
    ∧ (∀ (d msg : String) (a : AccountCredential) (b : AccountBehavior),
        b.consoleSetup = .error msg →
        processAccount d a b = catchResult d a b msg)
    ∧ (∀ (d msg : String) (a : AccountCredential) (b : AccountBehavior),
        b.consoleSetup = .ok () → b.authUrl = .error msg →
        processAccount d a b = catchResult d a b msg)
    ∧ (∀ (d msg u : String) (a : AccountCredential) (b : AccountBehavior),
        b.consoleSetup = .ok () → b.authUrl = .ok u →
        ((getStateFromAuthUrl u).getD "") ≠ "" → b.flow = .error msg →
        processAccount d a b = catchResult d a b msg)
    ∧ (∀ (d msg u : String) (a : AccountCredential) (b : AccountBehavior)
        (fr : FlowResult),
        b.consoleSetup = .ok () → b.authUrl = .ok u →
        ((getStateFromAuthUrl u).getD "") ≠ "" → b.flow = .ok fr →
        fr.challenge = false → b.detect = .error msg →
        processAccount d a b = catchResult d a b msg)
    ∧ (∀ (d msg u : String) (a : AccountCredential) (b : AccountBehavior)
        (fr : FlowResult) (c : Bool),
        b.consoleSetup = .ok () → b.authUrl = .ok u →
        ((getStateFromAuthUrl u).getD "") ≠ "" → b.flow = .ok fr →
        (if fr.challenge then Except.ok true else b.detect) = .ok c →
        b.poll = .error msg →
        processAccount d a b = catchResult d a b msg)
    ∧ (∀ (d msg u : String) (a : AccountCredential) (b : AccountBehavior)
        (fr : FlowResult) (st : CpamcAuthStatus),
        b.consoleSetup = .ok () → b.authUrl = .ok u →
        ((getStateFromAuthUrl u).getD "") ≠ "" → b.flow = .ok fr →
        (if fr.challenge then Except.ok true else b.detect) = .ok false →
        b.poll = .ok st → fr.invalidCredentials = false → st.status = .success →
        b.file = .error msg →
        processAccount d a b = catchResult d a b msg)
    ∧ (∀ (d : String) (pre post : List (AccountCredential × AccountBehavior))
        (a : AccountCredential) (b : AccountBehavior),
        runAuthBatch d (pre ++ (a, b) :: post)
          = runAuthBatch d pre ++ processAccount d a b :: runAuthBatch d post) := by
  refine ⟨?_, ?_, ?_, ?_, ?_, ?_, ?_, ?_, ?_⟩
  · intro msg
    refine ⟨fun h1 => ?_, fun h1 h2 => ?_, fun h1 h2 h3 => ?_, fun h1 h2 h3 => ?_⟩
    · simp [classifyCaughtError, h1]
    · simp [classifyCaughtError, h1, h2]
    · simp [classifyCaughtError, h1, h2, h3]
    · simp [classifyCaughtError, h1, h2, h3]
  · intro d msg a b
    exact ⟨rfl, rfl, rfl⟩
  · intro d msg a b h1
    unfold processAccount
    rw [h1]
  · intro d msg a b h1 h2
    unfold processAccount
    rw [h1]
    dsimp only
    rw [h2]
  · intro d msg u a b h1 h2 h3 h4
    unfold processAccount
    rw [h1]
    dsimp only
    rw [h2]
    dsimp only
    rw [if_neg h3, h4]
  · intro d msg u a b fr h1 h2 h3 h4 h5 h6
    have hif : (if fr.challenge then Except.ok true else b.detect) = .error msg := by
      rw [h5]
      simpa using h6
    unfold processAccount
    rw [h1]
    dsimp only
    rw [h2]
    dsimp only
    rw [if_neg h3, h4]
    dsimp only
    rw [hif]
  · intro d msg u a b fr c h1 h2 h3 h4 h5 h6
    unfold processAccount
    rw [h1]
    dsimp only
    rw [h2]
    dsimp only
    rw [if_neg h3, h4]
    dsimp only
    rw [h5]
    dsimp only
    rw [h6]
  · intro d msg u a b fr st h1 h2 h3 h4 h5 h6 h7 h8 h9
    rw [processAccount_ok_branch d a b u fr false st h1 h2 h3 h4 h5 h6,
        if_neg (by simp [h7]), if_neg (by simp), if_neg (by simp [h8]),
        if_neg (by simp [h8]), h9]
  · intro d pre post a b
    rw [runAuthBatch_map, runAuthBatch_map, runAuthBatch_map, List.map_append,
        List.map_cons]

/-! ### Artifact verifier lemmas (claim C8) -/

theorem waitForAuthFile_cons_none {dir email : String}
    {snap : List (String × Option JsonVal)}
    {rest : List (List (String × Option JsonVal))}
    (h : findAuthFileInSnapshot dir email snap = none) :
    waitForAuthFileByEmail dir email (snap :: rest)
      = waitForAuthFileByEmail dir email rest := by
  rw [waitForAuthFileByEmail, h]

theorem waitForAuthFile_cons_some {dir email : String}
    {snap : List (String × Option JsonVal)}
    {rest : List (List (String × Option JsonVal))} {g : String}
    (h : findAuthFileInSnapshot dir email snap = some g) :
    waitForAuthFileByEmail dir email (snap :: rest) = some g := by
  unfold waitForAuthFileByEmail
  rw [h]

theorem snapshotFileMatches_some {le : String} {c : Option JsonVal}
    (h : snapshotFileMatches le c = true) :
    ∃ (j : JsonVal) (em : String), c = some j
      ∧ jsonField j "email" = some (.jstr em) ∧ strLower em = le := by
  cases c with
  | none => exact Bool.noConfusion h
  | some j =>
    cases j with
    | jnull => exact Bool.noConfusion h
    | jbool b => exact Bool.noConfusion h
    | jnum n => exact Bool.noConfusion h
    | jstr s => exact Bool.noConfusion h
    | jarr l => exact Bool.noConfusion h
    | jobj fl =>
      replace h : (match jsonField (JsonVal.jobj fl) "email" with
          | some (.jstr em) => strLower em == le
          | _ => false) = true := h
      cases hj : jsonField (JsonVal.jobj fl) "email" with
      | none => rw [hj] at h; exact Bool.noConfusion h
      | some je =>
        rw [hj] at h
        cases je <;> first
          | exact Bool.noConfusion h
          | exact ⟨JsonVal.jobj fl, _, rfl, hj, eq_of_beq h⟩

theorem findAuthFileInSnapshot_some {dir email : String}
    {snap : List (String × Option JsonVal)} {f : String}
    (h : findAuthFileInSnapshot dir email snap = some f) :
    ∃ nc ∈ snap, isCodexJsonName nc.1 = true
      ∧ snapshotFileMatches (strLower email) nc.2 = true
      ∧ f = pathJoin dir nc.1 := by
  unfold findAuthFileInSnapshot at h
  cases hfind : (snap.filter (fun p => isCodexJsonName p.1)).find?
      (fun p => snapshotFileMatches (strLower email) p.2) with
  | none => rw [hfind] at h; exact Option.noConfusion h
  | some nc =>
    rw [hfind] at h
    have hmem := List.mem_of_find?_eq_some hfind
    have hpred := List.find?_some hfind
    rw [List.mem_filter] at hmem
    refine ⟨nc, hmem.1, hmem.2, hpred, ?_⟩
    have : some (pathJoin dir nc.1) = some f := h
    exact (Option.some.injEq _ _ ▸ this).symm

/-- C8: the artifact verifier only returns a file that appeared in some polled
snapshot under the `codex-*.json` naming convention with a parsed `email`
case-insensitively equal to the target; a tick with no match (unreadable and
unparsable contents never match) just advances to the next tick; and when
every tick before the timeout fails, the orchestrator records `WRITE_FAILED`
for the account. -/
theorem artifact_verifier_spec :
    (∀ (dir email : String) (snaps : List (List (String × Option JsonVal)))
        (f : String),
      waitForAuthFileByEmail dir email snaps = some f →
        ∃ snap ∈ snaps, ∃ nc ∈ snap,
          strStarts nc.1 "codex-" = true ∧ strEnds nc.1 ".json" = true
          ∧ (∃ (j : JsonVal) (em : String), nc.2 = some j
              ∧ jsonField j "email" = some (.jstr em)
              ∧ strLower em = strLower email)
          ∧ f = pathJoin dir nc.1)
    ∧ (∀ (dir email : String) (snap : List (String × Option JsonVal))
        (rest : List (List (String × Option JsonVal))),
      findAuthFileInSnapshot dir email snap = none →
        waitForAuthFileByEmail dir email (snap :: rest)
          = waitForAuthFileByEmail dir email rest)
    ∧ (∀ lowerEmail : String, snapshotFileMatches lowerEmail none = false)
    ∧ (∀ (d : String) (a : AccountCredential) (b : AccountBehavior) (u : String)
        (fr : FlowResult) (st : CpamcAuthStatus),
      b.consoleSetup = .ok () → b.authUrl = .ok u →
      ((getStateFromAuthUrl u).getD "") ≠ "" → b.flow = .ok fr →
      (if fr.challenge then Except.ok true else b.detect) = .ok false →
      b.poll = .ok st → fr.invalidCredentials = false → st.status = .success →
      b.file = .ok none →
      (processAccount d a b).status = .failed
        ∧ (processAccount d a b).code = some .WRITE_FAILED) := by
  refine ⟨?_, ?_, ?_, ?_⟩
  · intro dir email snaps f h
    induction snaps with
    | nil => exact Option.noConfusion h
    | cons snap rest ih =>
      cases hfind : findAuthFileInSnapshot dir email snap with
      | some g =>
        rw [waitForAuthFile_cons_some hfind] at h
        obtain rfl : g = f := Option.some.injEq _ _ ▸ h
        obtain ⟨nc, hnc, hname, hmatch, hpath⟩ := findAuthFileInSnapshot_some hfind
        obtain ⟨j, em, hcontent, hemail, hlow⟩ := snapshotFileMatches_some hmatch
        exact ⟨snap, List.mem_cons_self _ _, nc, hnc,
          (Bool.and_eq_true _ _ ▸ hname).1, (Bool.and_eq_true _ _ ▸ hname).2,
          ⟨j, em, hcontent, hemail, hlow⟩, hpath⟩
      | none =>
        rw [waitForAuthFile_cons_none hfind] at h
        obtain ⟨snap', hsnap', rest'⟩ := ih h
        exact ⟨snap', List.mem_cons_of_mem _ hsnap', rest'⟩
  · intro dir email snap rest h
    exact waitForAuthFile_cons_none h
  · intro lowerEmail
    rfl
  · intro d a b u fr st h1 h2 h3 h4 h5 h6 h7 h8 h9
    rw [processAccount_ok_branch d a b u fr false st h1 h2 h3 h4 h5 h6,
        if_neg (by simp [h7]), if_neg (by simp), if_neg (by simp [h8]),
        if_neg (by simp [h8]), h9]
    exact ⟨rfl, rfl⟩

/-- C9: `detectChallenge` is suppressed while any frame shows the provider
consent surface; otherwise it fires exactly when a configured challenge
selector is visible or the lowercased page content contains a configured
challenge text pattern that is not in the overly-broad exclusion set. -/
theorem detectChallenge_spec (p : PageModel) (cfg : FlowConfig) :
    (onCodexConsentPage p = true ↔ ∃ ft ∈ p.frames, frameLooksLikeConsent ft = true)
    ∧ (onCodexConsentPage p = true → detectChallenge p cfg = false)
    ∧ (onCodexConsentPage p = false →
        (detectChallenge p cfg = true ↔
          ((∃ s ∈ cfg.challengeSelectors, selectorVisible p s = true)
           ∨ ∃ t ∈ cfg.challengeTextPatterns,
               overlyBroad.contains (strLower t) = false
               ∧ strContains (strLower p.content) (strLower t) = true))) := by
  refine ⟨List.any_eq_true, ?_, ?_⟩
  · intro h
    simp [detectChallenge, h]
  · intro h
    have hform : detectChallenge p cfg =
        (if cfg.challengeSelectors.any (fun s => selectorVisible p s) then true
         else ((cfg.challengeTextPatterns.map strLower).filter
            (fun t => !(overlyBroad.contains t))).any
          (fun t => strContains (strLower p.content) t)) := by
      unfold detectChallenge
      rw [h]
      rfl
    rw [hform]
    by_cases hs : cfg.challengeSelectors.any (fun s => selectorVisible p s) = true
    · rw [if_pos hs]
      exact ⟨fun _ => Or.inl (List.any_eq_true.mp hs), fun _ => rfl⟩
    · rw [Bool.not_eq_true] at hs
      rw [if_neg (by simp [hs])]
      constructor
      · intro hany
        obtain ⟨t, ht, hc⟩ := List.any_eq_true.mp hany
        rw [List.mem_filter] at ht
        obtain ⟨t0, ht0, rfl⟩ := List.mem_map.mp ht.1
        exact Or.inr ⟨t0, ht0, by simpa using ht.2, hc⟩
      · rintro (⟨s, hsmem, hsvis⟩ | ⟨t, htmem, hbroad, hcont⟩)
        · rw [List.any_eq_true.mpr ⟨s, hsmem, hsvis⟩] at hs
          exact Bool.noConfusion hs
        · exact List.any_eq_true.mpr ⟨strLower t,
            List.mem_filter.mpr ⟨List.mem_map.mpr ⟨t, htmem, rfl⟩, by simpa using hbroad⟩,
            hcont⟩

/-! ### Artifact classification (claim C4) -/

theorem classify_some_status (now : Int) (dp : String → Option Int) (file : String)
    (j : JsonVal) (hj : j ≠ .jnull) :
    (classify now dp file (some j)).status =
      (if readDisabled j then some (.jstr "disabled")
       else if expiredInPast now dp (readExpiredStr j) then some (.jstr "expired")
       else some (.jstr "active")) := by
  have hbody : ∀ data : JsonVal,
      ((let email := readEmailOr data file
        let expired := readExpiredStr data
        if readDisabled data then
          ({ email := email, file := file, expired := expired.map .jstr,
             status := some (.jstr "disabled") } : RotateAccountEntry)
        else if expiredInPast now dp expired then
          { email := email, file := file, expired := expired.map .jstr,
            status := some (.jstr "expired") }
        else
          { email := email, file := file, expired := expired.map .jstr,
            status := some (.jstr "active") }) : RotateAccountEntry).status =
      (if readDisabled data then some (.jstr "disabled")
       else if expiredInPast now dp (readExpiredStr data) then some (.jstr "expired")
       else some (.jstr "active")) := by
    intro data
    by_cases h1 : readDisabled data = true
    · simp only [h1]
      rfl
    · rw [Bool.not_eq_true] at h1
      by_cases h2 : expiredInPast now dp (readExpiredStr data) = true
      · simp only [h1, h2]
        rfl
      · rw [Bool.not_eq_true] at h2
        simp only [h1, h2]
        rfl
  cases j with
  | jnull => exact absurd rfl hj
  | jbool b => exact hbody (.jbool b)
  | jnum n => exact hbody (.jnum n)
  | jstr s => exact hbody (.jstr s)
  | jarr l => exact hbody (.jarr l)
  | jobj fl => exact hbody (.jobj fl)

/-- C4 counterexample: a file whose content is the JSON literal `null` parses
as JSON, is not `disabled: true` and carries no past `expired` string, so the
claim's "all other cases" clause says `active`; `classify` records `invalid`
(the property accesses on `null` throw inside the `try`). -/
theorem classify_null_counterexample :
    (classify 0 dpNone "/dir/codex-a.json" (some .jnull)).status = some (.jstr "invalid")
    ∧ (classify 0 dpNone "/dir/codex-a.json" (some .jnull)).status
        ≠ some (.jstr "active") := by
  refine ⟨rfl, fun h => ?_⟩
  exact Bool.noConfusion (congrArg (fun st => match st with
    | some (JsonVal.jstr t) => t == "active"
    | _ => false) h)

/-- C4 (amended): `classify` is total by construction, records `disabled`
whenever the parsed content has `disabled === true` regardless of `expired`,
records `expired` whenever not disabled and the `expired` field is a string
parsing to a timestamp strictly before now, records `invalid` for an
unreadable or unparsable file and also for a file parsing to JSON `null`
(whose field access throws and is caught), and records `active` in all other
cases. (`hdp` captures `Date.parse("") = NaN`, matching the code's
truthiness test.) -/
theorem classify_spec_amended (now : Int) (dp : String → Option Int) (file : String)
    (hdp : dp "" = none) :
    (∀ j : JsonVal, readDisabled j = true →
        (classify now dp file (some j)).status = some (.jstr "disabled"))
    ∧ (∀ (j : JsonVal) (s : String) (t : Int), readDisabled j = false →
        readExpiredStr j = some s → dp s = some t → t < now →
        (classify now dp file (some j)).status = some (.jstr "expired"))
    ∧ ((classify now dp file none).status = some (.jstr "invalid")
       ∧ (classify now dp file (some .jnull)).status = some (.jstr "invalid"))
    ∧ (∀ j : JsonVal, j ≠ .jnull → readDisabled j = false →
        (∀ (s : String) (t : Int), readExpiredStr j = some s → dp s = some t →
          ¬ t < now) →
        (classify now dp file (some j)).status = some (.jstr "active")) := by
  refine ⟨?_, ?_, ⟨rfl, rfl⟩, ?_⟩
  · intro j h
    have hj : j ≠ .jnull := by
      intro hn
      subst hn
      exact Bool.noConfusion h
    rw [classify_some_status now dp file j hj, if_pos h]
  · intro j s t h1 h2 h3 h4
    have hj : j ≠ .jnull := by
      intro hn
      subst hn
      exact Option.noConfusion h2
    have hs : s ≠ "" := by
      intro hn
      subst hn
      rw [hdp] at h3
      exact Option.noConfusion h3
    have hexp : expiredInPast now dp (readExpiredStr j) = true := by
      rw [h2]
      simp [expiredInPast, h3, hs, h4]
    rw [classify_some_status now dp file j hj]
    simp only [h1, hexp]
    rfl
  · intro j hj h1 h2
    have hexp : expiredInPast now dp (readExpiredStr j) = false := by
      cases hre : readExpiredStr j with
      | none => rfl
      | some s =>
        cases hds : dp s with
        | none => simp [expiredInPast, hds]
        | some t => simp [expiredInPast, hds, h2 s t hre hds]
    rw [classify_some_status now dp file j hj]
    simp only [h1, hexp]
    rfl

/-! ### Witnesses: each claim theorem applied at a concrete input -/

/-- Witness for C1 at the two-account demo batch. -/
theorem orchestrator_one_result_per_account_witness :
    (runAuthBatch "free" demoBatch).length = demoBatch.length
    ∧ (demoResult.status = AuthStatus.success ∨ demoResult.status = AuthStatus.failed
        ∨ demoResult.status = AuthStatus.skipped) :=
  ⟨(orchestrator_one_result_per_account "free" demoBatch).1,
   (orchestrator_one_result_per_account "free" demoBatch).2.2 demoResult
     (by
       have h : runAuthBatch "free" demoBatch
           = [demoResult, processAccount "free" demoAccountB demoThrowBehavior] := rfl
       rw [h]
       exact List.mem_cons_self _ _)⟩

/-- Witness for C2: flow-reported invalid credentials with a console-reported
success still record `LOGIN_REJECTED`. -/
theorem reconciliation_precedence_witness :
    (processAccount "free" demoAccount demoInvalidBehavior).status = AuthStatus.failed
    ∧ (processAccount "free" demoAccount demoInvalidBehavior).code
        = some FailureCode.LOGIN_REJECTED :=
  (reconciliation_precedence "free" demoAccount demoInvalidBehavior demoAuthUrl
    demoInvalidFlow false { status := .success, message := some "认证成功" }
    rfl rfl (by decide) rfl rfl rfl).1 rfl

/-- Witness for C3: the freshly scanned entry survives the merge. -/
theorem writeRotationIndex_merge_monotone_witness :
    entryActive ∈ (writeRotationIndex "w1" none
      (buildRotationIndex 50 dpE "g1" "/d" listingExp)).accounts :=
  (writeRotationIndex_merge_monotone "w1" none
      (buildRotationIndex 50 dpE "g1" "/d" listingExp)).2.1 entryActive
    (by
      have h : (buildRotationIndex 50 dpE "g1" "/d" listingExp).accounts
          = [entryActive] := rfl
      rw [h]
      exact List.mem_cons_self _ _)
    (by
      intro b' hb' _
      have h : (buildRotationIndex 50 dpE "g1" "/d" listingExp).accounts
          = [entryActive] := rfl
      rw [h] at hb'
      exact List.mem_singleton.mp hb')

/-- Witness for C4 (amended) at a `disabled: true` artifact. -/
theorem classify_spec_amended_witness :
    (classify 0 dpNone "/d/f.json"
      (some (.jobj [("disabled", .jbool true)]))).status = some (.jstr "disabled") :=
  (classify_spec_amended 0 dpNone "/d/f.json" rfl).1 (.jobj [("disabled", .jbool true)]) rfl

/-- Witness for C5 (amended) at the one-artifact directory. -/
theorem rotationIndex_counts_amended_witness :
    (buildRotationIndex 50 dpE "g" "/d" listingExp).active
      + (buildRotationIndex 50 dpE "g" "/d" listingExp).expired
      + (buildRotationIndex 50 dpE "g" "/d" listingExp).disabled
      + (buildRotationIndex 50 dpE "g" "/d" listingExp).invalid
      = (buildRotationIndex 50 dpE "g" "/d" listingExp).total
    ∧ (writeRotationIndex "w" none (buildRotationIndex 50 dpE "g" "/d" listingExp)).active
      + (writeRotationIndex "w" none (buildRotationIndex 50 dpE "g" "/d" listingExp)).expired
      + (writeRotationIndex "w" none (buildRotationIndex 50 dpE "g" "/d" listingExp)).disabled
      + (writeRotationIndex "w" none (buildRotationIndex 50 dpE "g" "/d" listingExp)).invalid
      = (writeRotationIndex "w" none (buildRotationIndex 50 dpE "g" "/d" listingExp)).total :=
  ⟨(rotationIndex_counts_amended.1 50 dpE "g" "/d" listingExp
      (buildRotationIndex 50 dpE "g" "/d" listingExp) rfl).2.2.2.2.2,
   (rotationIndex_counts_amended.2 "w" none 50 dpE "g" "/d" listingExp
      (writeRotationIndex "w" none (buildRotationIndex 50 dpE "g" "/d" listingExp))
      (by
        intro e he
        simp [decodePrevAccounts, prevAccountsArray] at he)
      rfl).2.2.2.2.2⟩

/-- Witness for C6 (amended): with an unparsable `expired` timestamp nothing
crosses the clock interval, and the artifact's entry survives both runs. -/
theorem rotationIndexer_idempotent_amended_witness :
    entryActive ∈ (writeRotationIndex "w2"
        (some (indexToJson (writeRotationIndex "w1" none
          (buildRotationIndex 50 dpNone "g1" "/d" listingExp))))
        (buildRotationIndex 60 dpNone "g2" "/d" listingExp)).accounts
    ↔ entryActive ∈ (writeRotationIndex "w1" none
        (buildRotationIndex 50 dpNone "g1" "/d" listingExp)).accounts :=
  rotationIndexer_idempotent_amended 50 60 dpNone "g1" "g2" "w1" "w2" "/d" listingExp none
    (by decide)
    (fun _ _ _ _ _ _ _ h3 => Option.noConfusion h3)
    entryActive

/-- Witness for C7: a flow-stage timeout exception is caught, classified to
`LOGIN_REJECTED`, and recorded. -/
theorem exception_handling_spec_witness :
    processAccount "free" demoAccountB demoThrowBehavior
      = catchResult "free" demoAccountB demoThrowBehavior "Timeout 120000ms exceeded."
    ∧ classifyCaughtError "Timeout 120000ms exceeded." = FailureCode.LOGIN_REJECTED :=
  ⟨exception_handling_spec.2.2.2.2.1 "free" "Timeout 120000ms exceeded." demoAuthUrl
      demoAccountB demoThrowBehavior rfl rfl (by decide) rfl,
   (exception_handling_spec.1 "Timeout 120000ms exceeded.").2.2.1 (by decide) (by decide)
      (by decide)⟩

/-- Witness for C8: a tick whose only file is unreadable advances the poll,
and an account whose verification times out records `WRITE_FAILED`. -/
theorem artifact_verifier_spec_witness :
    waitForAuthFileByEmail "/a" "a@x.com" [[("codex-1.json", none)]]
      = waitForAuthFileByEmail "/a" "a@x.com" []
    ∧ (processAccount "free" demoAccount demoNoFileBehavior).status = AuthStatus.failed
    ∧ (processAccount "free" demoAccount demoNoFileBehavior).code
        = some FailureCode.WRITE_FAILED :=
  ⟨artifact_verifier_spec.2.1 "/a" "a@x.com" [("codex-1.json", none)] [] rfl,
   (artifact_verifier_spec.2.2.2 "free" demoAccount demoNoFileBehavior demoAuthUrl
      demoOkFlow { status := .success, message := some "ok" }
      rfl rfl (by decide) rfl rfl rfl rfl rfl rfl).1,
   (artifact_verifier_spec.2.2.2 "free" demoAccount demoNoFileBehavior demoAuthUrl
      demoOkFlow { status := .success, message := some "ok" }
      rfl rfl (by decide) rfl rfl rfl rfl rfl rfl).2⟩

/-- Witness for C9: a consent page suppresses detection; a challenge text
pattern outside the exclusion set fires it. -/
theorem detectChallenge_spec_witness :
    detectChallenge demoConsentPage demoFlowConfig = false
    ∧ detectChallenge demoChallengePage demoFlowConfig = true :=
  ⟨(detectChallenge_spec demoConsentPage demoFlowConfig).2.1 rfl,
   ((detectChallenge_spec demoChallengePage demoFlowConfig).2.2 rfl).mpr
     (Or.inr ⟨"security check", by decide, by decide, by decide⟩)⟩

/-- Witness for C10: a non-object prior element is dropped; the surviving
weird-status entry of `prevWeirdStatus` is traced to a well-formed prior
element. -/
theorem writeRotationIndex_drops_malformed_witness :
    decodeEntry (.jnum 3) = none
    ∧ (entryWeird ∈ emptyIdx.accounts
       ∨ ∃ j ∈ prevAccountsArray (some prevWeirdStatus),
           isWellFormedPrev j = true ∧ decodeEntry j = some entryWeird) :=
  ⟨writeRotationIndex_drops_malformed.1 (.jnum 3) rfl,
   writeRotationIndex_drops_malformed.2 "g" (some prevWeirdStatus) emptyIdx entryWeird
     (by
       have h : (writeRotationIndex "g" (some prevWeirdStatus) emptyIdx).accounts
           = [entryWeird] := rfl
       rw [h]
       exact List.mem_cons_self _ _)⟩

end OauthBatch
